import Mathlib

/-!
Verification of the PYME rule server task-distribution core
(`PYME/cluster/ruleserver.py`).

The embedding models `IntegerIDRule` (the per-rule task state machine) and
the relevant parts of `RuleServer` (hand-in batching, the rule-polling sweep
with rule chaining, and the advertisement aggregation loop).

Modelling conventions:
* the numpy record array `_task_info` is a `List TaskInfo`; numpy
  fancy-indexing / slicing is reproduced by explicit recursive updates;
* `uint8` fields (`status`, `nRetries`) are `Nat` with writes reduced
  mod 256 where the source converts;
* timestamps and costs (`f4` in the source) are modelled as exact `Int`
  (the claims under study depend only on ordering and additivity, not on
  float representation); the derived average cost is an exact `ℚ`;
* Python counters are `Int` (they can go negative in the source);
* `time.time()` is passed in explicitly as a `now` argument;
* operations that raise in Python return a `Bool` success flag together
  with the state the object holds after the call (all raises under study
  occur before any mutation except `mark_datasource_complete`, whose
  counter refresh precedes its validity check, as in the source);
* the advertisement / info caches are elided: in the source every mutating
  operation invalidates the rule-level cache, so in a sequential trace the
  cached advert always equals its recomputation.
-/

namespace RuleServerModel

def STATUS_UNAVAILABLE : Nat := 0
def STATUS_AVAILABLE : Nat := 1
def STATUS_ASSIGNED : Nat := 2
def STATUS_COMPLETE : Nat := 3
def STATUS_FAILED : Nat := 4

/-- One row of the `TASK_INFO_DTYPE` record array:
`[('status', 'uint8'), ('nRetries', 'uint8'), ('expiry', 'f4'), ('cost', 'f4')]`. -/
structure TaskInfo where
  status : Nat
  nRetries : Nat
  expiry : Int
  cost : Int
  deriving Repr, DecidableEq

/-- `np.zeros(_, TASK_INFO_DTYPE)` row. -/
def zeroTask : TaskInfo := ⟨0, 0, 0, 0⟩

/-- The chained-rule descriptor supplied as the `on_completion` dictionary:
template plus optional `max_tasks`, `rule_timeout` and nested `on_completion`. -/
inductive OnCompletion : Type where
  | mk : String → Option Nat → Option Int → Option OnCompletion → OnCompletion

def OnCompletion.template : OnCompletion → String
  | .mk t _ _ _ => t

def OnCompletion.max_tasks : OnCompletion → Option Nat
  | .mk _ m _ _ => m

def OnCompletion.rule_timeout : OnCompletion → Option Int
  | .mk _ _ t _ => t

def OnCompletion.next : OnCompletion → Option OnCompletion
  | .mk _ _ _ n => n

/-- The state of an `IntegerIDRule`. -/
structure IntegerIDRule where
  ruleID : String
  template : String
  inputs_by_task : Option (List (Nat × String))
  tasks : List TaskInfo
  n_retries : Nat
  timeout : Int
  rule_timeout : Int
  active : Bool
  nTotal : Int
  nAssigned : Int
  nAvailable : Int
  nCompleted : Int
  nFailed : Int
  n_max : Int
  datasource_complete : Bool
  on_completion : Option OnCompletion
  avCost : ℚ
  expiry : Int

/-- `IntegerIDRule.__init__`.  `n_retries` is the value of the
`ruleserver-retries` config option (default 3 in the source). -/
def IntegerIDRule.init (ruleID task_template : String)
    (inputs_by_task : Option (List (Nat × String))) (max_task_ID : Nat)
    (task_timeout rule_timeout : Int) (on_completion : Option OnCompletion)
    (datasource_complete : Bool) (n_retries : Nat) (now : Int) : IntegerIDRule :=
  { ruleID := ruleID
    template := task_template
    inputs_by_task := inputs_by_task
    tasks := List.replicate max_task_ID zeroTask
    n_retries := n_retries
    timeout := task_timeout
    rule_timeout := rule_timeout
    active := true
    nTotal := 0
    nAssigned := 0
    nAvailable := 0
    nCompleted := 0
    nFailed := 0
    n_max := (max_task_ID : Int)
    datasource_complete := datasource_complete
    on_completion := on_completion
    avCost := 0
    expiry := now + rule_timeout }

/-- Number of tasks in `ts` whose status equals `st`, as an `Int`
(counters in the source are Python ints). -/
def countStatus (ts : List TaskInfo) (st : Nat) : Int :=
  ((ts.filter (fun t => t.status == st)).length : Int)

/-- The task row at index `i` (callers supply `i < ts.length`). -/
def taskAt (ts : List TaskInfo) (i : Nat) : TaskInfo := ts.getD i zeroTask

/-- Apply `f` to the row at index `i`, leaving the rest unchanged. -/
def modifyTask : List TaskInfo → Nat → (TaskInfo → TaskInfo) → List TaskInfo
  | [], _, _ => []
  | t :: ts, 0, f => f t :: ts
  | t :: ts, i + 1, f => t :: modifyTask ts i f

/-- `self._task_info['status'][start:end] = STATUS_AVAILABLE` — the slice
assignment of `make_range_available`; `idx` is the absolute index of the
head of the list (`0` at the top-level call). -/
def setAvailableRange (s e : Int) : List TaskInfo → Int → List TaskInfo
  | [], _ => []
  | t :: ts, idx =>
      (if s ≤ idx ∧ idx < e then { t with status := STATUS_AVAILABLE } else t)
        :: setAvailableRange s e ts (idx + 1)

/-- numpy integer-array index resolution for an array of length `len`:
values in `[0, len)` address directly, values in `[-len, 0)` address from
the end, anything else raises `IndexError`. -/
def resolveId (len : Nat) (v : Int) : Option Nat :=
  if 0 ≤ v ∧ v < (len : Int) then some v.toNat
  else if -(len : Int) ≤ v ∧ v < 0 then some (v + len).toNat
  else none

def resolveAll (len : Nat) : List Int → Option (List Nat)
  | [] => some []
  | v :: vs =>
      match resolveId len v, resolveAll len vs with
      | some i, some is => some (i :: is)
      | _, _ => none

/-- `IntegerIDRule._update_nums`: recompute `nAvailable` and `nAssigned`
from the task array. -/
def update_nums (r : IntegerIDRule) : IntegerIDRule :=
  { r with nAvailable := countStatus r.tasks STATUS_AVAILABLE
           nAssigned := countStatus r.tasks STATUS_ASSIGNED }

/-- `IntegerIDRule._update_cost`: mean cost over tasks with
`status > STATUS_AVAILABLE`, with the empty mean (`NaN` in numpy)
replaced by 0. -/
def update_cost (r : IntegerIDRule) : IntegerIDRule :=
  let claimed := r.tasks.filter (fun t => STATUS_AVAILABLE < t.status)
  let av : ℚ :=
    if claimed.length = 0 then 0
    else (claimed.map (fun t => (t.cost : ℚ))).sum / ((claimed.length : Nat) : ℚ)
  { r with avCost := av }

/-- `IntegerIDRule.make_range_available`.  Returns the rule together with a
success flag; on a range violation the source raises `RuntimeError` before
any mutation, so the state is returned unchanged. -/
def make_range_available (r : IntegerIDRule) (start end_ : Int) (now : Int) :
    IntegerIDRule × Bool :=
  let size : Int := (r.tasks.length : Int)
  if start < 0 ∨ start > size ∨ end_ < 0 ∨ end_ > size then (r, false)
  else
    let tasks1 := setAvailableRange start end_ r.tasks 0
    let r1 := { r with tasks := tasks1
                       nTotal := ((tasks1.filter (fun t => 0 < t.status)).length : Int) }
    let r2 := update_nums r1
    ({ r2 with expiry := now + r.rule_timeout }, true)

/-- `status → Assigned, cost ← bid cost, expiry ← now + timeout` for each
granted `(index, cost)` pair, applied in order (matching the numpy batched
fancy-index assignments, where the last write to a repeated index wins). -/
def applyGrants (e : Int) : List TaskInfo → List (Nat × Int) → List TaskInfo
  | ts, [] => ts
  | ts, (i, c) :: rest =>
      applyGrants e
        (modifyTask ts i (fun t => { t with status := STATUS_ASSIGNED, cost := c, expiry := e }))
        rest

/-- The elementwise alignment of the requested ids, their resolved indices
and the reported costs (numpy operates on the three aligned arrays). -/
def bidTriples : List Int → List Nat → List Int → List (Int × Nat × Int)
  | v :: vs, i :: is, c :: cs => (v, i, c) :: bidTriples vs is cs
  | _, _, _ => []

/-- `IntegerIDRule.bid`.  Returns the updated rule and the granted task ids
(the requested values, as in `successful_bid_ids.tolist()`).  Invalid calls
(an unresolvable index, or mismatched id/cost list lengths, which raise in
numpy) are modelled as failing upfront with no grant. -/
def IntegerIDRule.bid (r : IntegerIDRule) (taskIDs : List Int) (costs : List Int)
    (now : Int) : IntegerIDRule × List Int :=
  if !r.active then (r, [])
  else
    match resolveAll r.tasks.length taskIDs with
    | none => (r, [])
    | some resolved =>
      if taskIDs.length ≠ costs.length then (r, [])
      else
        let triples := bidTriples taskIDs resolved costs
        let grantedTriples :=
          triples.filter (fun p => (taskAt r.tasks p.2.1).status == STATUS_AVAILABLE)
        let grantedIds := grantedTriples.map (fun p => p.1)
        let grants := grantedTriples.map (fun p => p.2)
        let tasks1 := applyGrants (now + r.timeout) r.tasks grants
        let nTasks : Int := (grants.length : Int)
        let r1 := { r with tasks := tasks1
                           nAvailable := r.nAvailable - nTasks
                           nAssigned := r.nAssigned + nTasks }
        let r2 := update_cost r1
        ({ r2 with expiry := now + r.rule_timeout }, grantedIds)

/-- `self._task_info['status'][taskIDs] = status` for resolved
`(index, status)` pairs, in order. -/
def applyStatuses : List TaskInfo → List (Nat × Nat) → List TaskInfo
  | ts, [] => ts
  | ts, (i, v) :: rest =>
      applyStatuses (modifyTask ts i (fun t => { t with status := v })) rest

/-- `IntegerIDRule.mark_complete`.  The reported statuses are converted to
`uint8` (mod 256) before both the write and the counter roll-up, as in the
source.  Invalid calls (unresolvable index / length mismatch, which raise
in numpy) fail with the state unchanged. -/
def mark_complete (r : IntegerIDRule) (taskIDs : List Int) (statusVals : List Nat)
    (now : Int) : IntegerIDRule × Bool :=
  let sts := statusVals.map (fun v => v % 256)
  match resolveAll r.tasks.length taskIDs with
  | none => (r, false)
  | some resolved =>
    if taskIDs.length ≠ statusVals.length then (r, false)
    else
      let tasks1 := applyStatuses r.tasks (resolved.zip sts)
      ({ r with tasks := tasks1
                nCompleted := r.nCompleted + ((sts.filter (fun v => v == STATUS_COMPLETE)).length : Int)
                nFailed := r.nFailed + ((sts.filter (fun v => v == STATUS_FAILED)).length : Int)
                nAssigned := r.nAssigned - (taskIDs.length : Int)
                expiry := now + r.rule_timeout }, true)

/-- The timeout predicate of `poll_timeouts`:
`(status == STATUS_ASSIGNED) * (expiry < t)`. -/
def timedOut (t : Int) (task : TaskInfo) : Bool :=
  task.status == STATUS_ASSIGNED && decide (task.expiry < t)

/-- The retry-exhaustion predicate of `poll_timeouts`:
`nRetries > self._n_retries` (evaluated over the whole array). -/
def retryFailed (n_retries : Nat) (task : TaskInfo) : Bool :=
  decide (n_retries < task.nRetries)

/-- `IntegerIDRule.poll_timeouts` at sweep time `t`. -/
def poll_timeouts (r : IntegerIDRule) (t : Int) : IntegerIDRule :=
  let nTimedOut := (r.tasks.filter (timedOut t)).length
  if 0 < nTimedOut then
    let tasks1 := r.tasks.map (fun task =>
      if timedOut t task then
        { task with status := STATUS_AVAILABLE, nRetries := (task.nRetries + 1) % 256 }
      else task)
    let nFailedNow := (tasks1.filter (retryFailed r.n_retries)).length
    let tasks2 := tasks1.map (fun task =>
      if retryFailed r.n_retries task then { task with status := STATUS_FAILED } else task)
    { r with tasks := tasks2
             nAssigned := r.nAssigned - (nTimedOut : Int)
             nAvailable := r.nAvailable + (nTimedOut : Int) - (nFailedNow : Int) }
  else r

/-- `IntegerIDRule.mark_datasource_complete`.  The counter refresh
(`_update_nums`) happens before the validity check, so even a rejected call
returns the refreshed state, as in the source. -/
def mark_datasource_complete (r : IntegerIDRule) (n_max : Int) :
    IntegerIDRule × Bool :=
  let r1 := update_nums r
  if n_max < r1.nAssigned then (r1, false)
  else
    let tasks1 :=
      if (r1.tasks.length : Int) < n_max then
        r1.tasks ++ List.replicate (n_max - (r1.tasks.length : Int)).toNat zeroTask
      else r1.tasks
    ({ r1 with tasks := tasks1, n_max := n_max, datasource_complete := true }, true)

/-- `np.where(status == STATUS_AVAILABLE)[0]`: the (sorted) available ids. -/
def availableTaskIDs (r : IntegerIDRule) : List Nat :=
  (List.range r.tasks.length).filter
    (fun i => (taskAt r.tasks i).status == STATUS_AVAILABLE)

/-- A rule's task advertisement. -/
structure Advert where
  ruleID : String
  taskTemplate : String
  availableTaskIDs : List Nat
  inputsByTask : Option (List (Nat × Option String))
  deriving Repr

/-- `IntegerIDRule.advert` (the recomputed value; the cut-through cache is
invalidated by every mutating operation and is elided here). -/
def advert (r : IntegerIDRule) : Option Advert :=
  if !r.active then none
  else
    let av := availableTaskIDs r
    if av.isEmpty then none
    else some
      { ruleID := r.ruleID
        taskTemplate := r.template
        availableTaskIDs := av
        inputsByTask := r.inputs_by_task.map (fun m => av.map (fun i => (i, m.lookup i))) }

/-- `IntegerIDRule.finished`. -/
def finished (r : IntegerIDRule) : Bool :=
  r.datasource_complete && decide (r.n_max ≤ r.nCompleted)

/-- `IntegerIDRule.expired` at time `t`. -/
def expired (r : IntegerIDRule) (t : Int) : Bool :=
  r.nAvailable == 0 && r.nAssigned == 0 && decide (r.expiry < t)

/-! ## RuleServer

The registry `self._rules` is an `OrderedDict`; we model it as an
insertion-ordered association list with unique keys. -/

/-- One entry of a `/handin` POST body. -/
structure HandinEntry where
  ruleID : String
  taskIDs : List Int
  status : List Nat

/-- Outcome of a `/handin` call. -/
inductive HandinOutcome : Type where
  | ok
  | keyError (key : String)
  | uncaught
  deriving Repr, DecidableEq

/-- `RuleServer.handin`: entries are applied in order inside a single
`try` block; an unknown `ruleID` raises `KeyError`, which the handler
catches at batch level — the remaining entries are not processed and
`{'ok': False, 'error': ...}` is returned.  A numpy error inside
`mark_complete` is not a `KeyError` and propagates (`uncaught`). -/
def handin (now : Int) : List (String × IntegerIDRule) → List HandinEntry →
    List (String × IntegerIDRule) × HandinOutcome
  | rules, [] => (rules, .ok)
  | rules, e :: rest =>
    match rules.lookup e.ruleID with
    | none => (rules, .keyError e.ruleID)
    | some r =>
      match mark_complete r e.taskIDs e.status now with
      | (r1, true) =>
          handin now (rules.map (fun p => if p.1 == e.ruleID then (p.1, r1) else p)) rest
      | (_, false) => (rules, .uncaught)

/-- `RuleServer.MAX_ADVERTISEMENTS = 5 * 10 * 50 * 12`. -/
def MAX_ADVERTISEMENTS : Nat := 5 * 10 * 50 * 12

/-- The rebuild loop of `RuleServer.task_advertisements`:
`while ruleN < len(rules) and nTasks < MAX_ADVERTISEMENTS: ...`. -/
def advertLoop : List IntegerIDRule → Nat → List Advert
  | [], _ => []
  | r :: rest, nTasks =>
    if nTasks < MAX_ADVERTISEMENTS then
      match advert r with
      | none => advertLoop rest nTasks
      | some a => a :: advertLoop rest (nTasks + a.availableTaskIDs.length)
    else []

/-- The advertisement list rebuilt by `RuleServer.task_advertisements`
(the 1-second response cache is elided; this is the value computed when
the cache has expired). -/
def task_advertisements (rules : List IntegerIDRule) : List Advert :=
  advertLoop rules 0

/-- One iteration of the `RuleServer._poll_rules` sweep body for the rule
keyed `qn`: poll its timeouts, then remove it if finished (registering the
chained rule built from its `on_completion` descriptor, if any), else
remove it if expired.  `freshID` stands for the generated
`'%06d-%s' % (self._rule_n, uuid.uuid4().hex)` identifier and `now` for
`time.time()`. -/
def poll_rule_step (rules : List (String × IntegerIDRule)) (qn : String)
    (freshID : String) (now : Int) (n_retries : Nat) :
    List (String × IntegerIDRule) :=
  match rules.lookup qn with
  | none => rules
  | some r =>
    let r1 := poll_timeouts r now
    let rules1 := rules.map (fun p => if p.1 == qn then (p.1, r1) else p)
    if finished r1 then
      let rules2 := rules1.eraseP (fun p => p.1 == qn)
      match r1.on_completion with
      | none => rules2
      | some f =>
        let n_tasks := f.max_tasks.getD 1
        let timeout := f.rule_timeout.getD 3600
        let rule := IntegerIDRule.init freshID f.template none n_tasks 600 timeout
          f.next true n_retries now
        let rule1 := (make_range_available rule 0 (n_tasks : Int) now).1
        rules2 ++ [(freshID, rule1)]
    else if expired r1 now then rules1.eraseP (fun p => p.1 == qn)
    else rules1

/-! ## Single-rule operation traces

The four mutating operations a client can drive on one rule, with the
`time.time()` values passed explicitly. -/

inductive RuleOp : Type where
  | makeRangeAvailable (start end_ : Int) (now : Int)
  | bid (taskIDs : List Int) (costs : List Int) (now : Int)
  | markComplete (taskIDs : List Int) (statusVals : List Nat) (now : Int)
  | pollTimeouts (now : Int)

/-- The state after one operation (a raising call leaves the state as the
source leaves the object). -/
def applyOp (r : IntegerIDRule) : RuleOp → IntegerIDRule
  | .makeRangeAvailable s e now => (make_range_available r s e now).1
  | .bid ids costs now => (r.bid ids costs now).1
  | .markComplete ids sts now => (mark_complete r ids sts now).1
  | .pollTimeouts now => poll_timeouts r now

/-- The state after a sequence of operations. -/
def run (r : IntegerIDRule) : List RuleOp → IntegerIDRule
  | [] => r
  | op :: rest => run (applyOp r op) rest

/-- The task ids granted by an operation (non-empty only for `bid`). -/
def grantedBy (r : IntegerIDRule) : RuleOp → List Int
  | .bid ids costs now => (r.bid ids costs now).2
  | _ => []

/-- Whether some operation of the trace grants a bid resolving to index `i`. -/
def grantsSomewhere (r : IntegerIDRule) (i : Nat) : List RuleOp → Bool
  | [] => false
  | op :: rest =>
      (grantedBy r op).any (fun v => resolveId r.tasks.length v == some i)
        || grantsSomewhere (applyOp r op) i rest

/-- Whether `op`, taken in state `r`, is an event that can put task `i`
back to Available: a valid `make_range_available` call covering `i`, or a
`poll_timeouts` sweep at a time past `i`'s lease expiry while `i` is
Assigned. -/
def releasesTask (r : IntegerIDRule) (op : RuleOp) (i : Nat) : Bool :=
  match op with
  | .makeRangeAvailable s e _ =>
      let size : Int := (r.tasks.length : Int)
      !(decide (s < 0) || decide (s > size) || decide (e < 0) || decide (e > size))
        && decide (s ≤ (i : Int)) && decide ((i : Int) < e)
  | .pollTimeouts t => timedOut t (taskAt r.tasks i)
  | _ => false

/-- No operation of the trace releases task `i`. -/
def noReleaseRun (r : IntegerIDRule) (i : Nat) : List RuleOp → Bool
  | [] => true
  | op :: rest => !releasesTask r op i && noReleaseRun (applyOp r op) i rest

/-- Task `i` is never among the advertised available ids at any point of
the trace. -/
def neverAvailableRun (r : IntegerIDRule) (i : Nat) : List RuleOp → Bool
  | [] => true
  | op :: rest =>
      let r1 := applyOp r op
      !(availableTaskIDs r1).contains i && neverAvailableRun r1 i rest

/-- Contract adherence for a single operation: `mark_complete` is only
documented for status values `STATUS_COMPLETE` and `STATUS_FAILED`. -/
def wfOp : RuleOp → Bool
  | .markComplete _ sts _ => sts.all (fun v => v == STATUS_COMPLETE || v == STATUS_FAILED)
  | _ => true

/-- Whether `op` hands in (addresses a `mark_complete` at) task `i`. -/
def touchesTask (r : IntegerIDRule) (op : RuleOp) (i : Nat) : Bool :=
  match op with
  | .markComplete ids _ _ => ids.any (fun v => resolveId r.tasks.length v == some i)
  | _ => false

/-- No hand-in of the trace addresses task `i`. -/
def noTouchRun (r : IntegerIDRule) (i : Nat) : List RuleOp → Bool
  | [] => true
  | op :: rest => !touchesTask r op i && noTouchRun (applyOp r op) i rest

/-- Task `i` has status Failed after every operation of the trace. -/
def alwaysFailedRun (r : IntegerIDRule) (i : Nat) : List RuleOp → Bool
  | [] => true
  | op :: rest =>
      let r1 := applyOp r op
      ((taskAt r1.tasks i).status == STATUS_FAILED) && alwaysFailedRun r1 i rest

/-- The aggregate counters agree with the task array. -/
def countersOK (r : IntegerIDRule) : Prop :=
  r.nAvailable = countStatus r.tasks STATUS_AVAILABLE
    ∧ r.nAssigned = countStatus r.tasks STATUS_ASSIGNED
    ∧ r.nCompleted = countStatus r.tasks STATUS_COMPLETE
    ∧ r.nFailed = countStatus r.tasks STATUS_FAILED

/-- No task has outrun the retry budget. -/
def retriesLe (r : IntegerIDRule) : Prop :=
  ∀ t ∈ r.tasks, t.nRetries ≤ r.n_retries

/-- A benign operation with respect to state `r`: a valid call that stays
inside the documented contracts and triggers no counter-drifting corner
(re-releasing a finished task, handing in a task that is not leased,
duplicate ids in one batch, retry exhaustion). -/
def wfStrong (r : IntegerIDRule) : RuleOp → Bool
  | .makeRangeAvailable s e _ =>
      decide (0 ≤ s ∧ s ≤ (r.tasks.length : Int) ∧ 0 ≤ e ∧ e ≤ (r.tasks.length : Int)
        ∧ ∀ k < r.tasks.length, s ≤ (k : Int) → (k : Int) < e →
            (taskAt r.tasks k).status ≠ STATUS_COMPLETE
              ∧ (taskAt r.tasks k).status ≠ STATUS_FAILED)
  | .bid ids costs _ =>
      decide (ids.Nodup ∧ ids.length = costs.length
        ∧ ∀ v ∈ ids, 0 ≤ v ∧ v < (r.tasks.length : Int))
  | .markComplete ids sts _ =>
      decide (ids.Nodup ∧ ids.length = sts.length
        ∧ (∀ v ∈ ids, 0 ≤ v ∧ v < (r.tasks.length : Int)
            ∧ (taskAt r.tasks v.toNat).status = STATUS_ASSIGNED)
        ∧ ∀ v ∈ sts, v = STATUS_COMPLETE ∨ v = STATUS_FAILED)
  | .pollTimeouts t =>
      decide (∀ task ∈ r.tasks, timedOut t task = true → task.nRetries < r.n_retries)

/-- Every operation of the trace is benign in the state where it runs. -/
def wfRun (r : IntegerIDRule) : List RuleOp → Bool
  | [] => true
  | op :: rest => wfStrong r op && wfRun (applyOp r op) rest

/-- Total number of task ids advertised by a list of rules. -/
def advertCount (rules : List IntegerIDRule) : Nat :=
  ((rules.filterMap advert).map (fun a => a.availableTaskIDs.length)).sum

/-! ## Basic lemmas about the list primitives -/

theorem countStatus_nil (st : Nat) : countStatus [] st = 0 := rfl

theorem countStatus_cons (t : TaskInfo) (ts : List TaskInfo) (st : Nat) :
    countStatus (t :: ts) st
      = (if t.status = st then 1 else 0) + countStatus ts st := by
  by_cases h : t.status = st
  · simp only [countStatus, List.filter_cons, h]
    simp
    omega
  · simp [countStatus, List.filter_cons, h]

theorem taskAt_nil (i : Nat) : taskAt [] i = zeroTask := by
  cases i <;> rfl

theorem taskAt_cons_zero (t : TaskInfo) (ts : List TaskInfo) :
    taskAt (t :: ts) 0 = t := rfl

theorem taskAt_cons_succ (t : TaskInfo) (ts : List TaskInfo) (i : Nat) :
    taskAt (t :: ts) (i + 1) = taskAt ts i := rfl

theorem taskAt_of_le (ts : List TaskInfo) (i : Nat) (h : ts.length ≤ i) :
    taskAt ts i = zeroTask := by
  induction ts generalizing i with
  | nil => exact taskAt_nil i
  | cons t ts ih =>
    cases i with
    | zero => simp at h
    | succ n => exact (taskAt_cons_succ t ts n).trans (ih n (by simpa using h))

theorem taskAt_mem (ts : List TaskInfo) (i : Nat) (h : i < ts.length) :
    taskAt ts i ∈ ts := by
  induction ts generalizing i with
  | nil => simp at h
  | cons t ts ih =>
    cases i with
    | zero => exact List.mem_cons_self _ _
    | succ n => exact List.mem_cons_of_mem _ (ih n (by simpa using h))

theorem length_modifyTask (ts : List TaskInfo) (i : Nat) (f : TaskInfo → TaskInfo) :
    (modifyTask ts i f).length = ts.length := by
  induction ts generalizing i with
  | nil => rfl
  | cons t ts ih =>
    cases i with
    | zero => rfl
    | succ n => simpa [modifyTask] using ih n

theorem taskAt_modifyTask_self (ts : List TaskInfo) (i : Nat) (f : TaskInfo → TaskInfo)
    (h : i < ts.length) :
    taskAt (modifyTask ts i f) i = f (taskAt ts i) := by
  induction ts generalizing i with
  | nil => simp at h
  | cons t ts ih =>
    cases i with
    | zero => rfl
    | succ n => exact ih n (by simpa using h)

theorem taskAt_modifyTask_ne (ts : List TaskInfo) (i j : Nat) (f : TaskInfo → TaskInfo)
    (h : j ≠ i) :
    taskAt (modifyTask ts i f) j = taskAt ts j := by
  induction ts generalizing i j with
  | nil => simp [modifyTask]
  | cons t ts ih =>
    cases i with
    | zero =>
      cases j with
      | zero => exact absurd rfl h
      | succ m => rfl
    | succ n =>
      cases j with
      | zero => rfl
      | succ m => exact ih n m (by omega)

theorem mem_modifyTask (ts : List TaskInfo) (i : Nat) (f : TaskInfo → TaskInfo) :
    ∀ u ∈ modifyTask ts i f, u ∈ ts ∨ ∃ t ∈ ts, u = f t := by
  induction ts generalizing i with
  | nil => simp [modifyTask]
  | cons t ts ih =>
    cases i with
    | zero =>
      intro u hu
      rcases List.mem_cons.mp hu with h | h
      · exact Or.inr ⟨t, List.mem_cons_self _ _, h⟩
      · exact Or.inl (List.mem_cons_of_mem _ h)
    | succ n =>
      intro u hu
      rcases List.mem_cons.mp hu with h | h
      · exact Or.inl (h ▸ List.mem_cons_self _ _)
      · rcases ih n u h with h1 | ⟨t1, ht1, h1⟩
        · exact Or.inl (List.mem_cons_of_mem _ h1)
        · exact Or.inr ⟨t1, List.mem_cons_of_mem _ ht1, h1⟩

theorem countStatus_modifyTask (ts : List TaskInfo) (i : Nat) (f : TaskInfo → TaskInfo)
    (st : Nat) (h : i < ts.length) :
    countStatus (modifyTask ts i f) st
      = countStatus ts st
        + (if (f (taskAt ts i)).status = st then 1 else 0)
        - (if (taskAt ts i).status = st then 1 else 0) := by
  induction ts generalizing i with
  | nil => simp at h
  | cons t ts ih =>
    cases i with
    | zero =>
      simp only [modifyTask, countStatus_cons, taskAt_cons_zero]
      omega
    | succ n =>
      have := ih n (by simpa using h)
      simp only [modifyTask, countStatus_cons, taskAt_cons_succ, this]
      omega

theorem length_setAvailableRange (s e : Int) (ts : List TaskInfo) (idx : Int) :
    (setAvailableRange s e ts idx).length = ts.length := by
  induction ts generalizing idx with
  | nil => rfl
  | cons t ts ih => simpa [setAvailableRange] using ih (idx + 1)

theorem taskAt_setAvailableRange (s e : Int) (ts : List TaskInfo) (idx : Int) (i : Nat)
    (h : i < ts.length) :
    taskAt (setAvailableRange s e ts idx) i
      = if s ≤ idx + (i : Int) ∧ idx + (i : Int) < e
        then { taskAt ts i with status := STATUS_AVAILABLE }
        else taskAt ts i := by
  induction ts generalizing idx i with
  | nil => simp at h
  | cons t ts ih =>
    cases i with
    | zero =>
      simp only [setAvailableRange, taskAt_cons_zero, Nat.cast_zero, add_zero]
    | succ n =>
      have := ih (idx + 1) n (by simpa using h)
      simp only [setAvailableRange, taskAt_cons_succ, this]
      have harith : idx + 1 + (n : Int) = idx + ((n : Nat) + 1 : Nat) := by push_cast; ring
      rw [harith]

theorem countStatus_setAvailableRange_of_ne (s e : Int) (ts : List TaskInfo) (idx : Int)
    (st : Nat) (hst : st ≠ STATUS_AVAILABLE)
    (h : ∀ k, k < ts.length → s ≤ idx + (k : Int) → idx + (k : Int) < e →
          (taskAt ts k).status ≠ st) :
    countStatus (setAvailableRange s e ts idx) st = countStatus ts st := by
  induction ts generalizing idx with
  | nil => rfl
  | cons t ts ih =>
    have htail := ih (idx + 1) (fun k hk h1 h2 => by
      have := h (k + 1) (by simpa using Nat.succ_lt_succ hk)
        (by push_cast; linarith)
        (by push_cast; linarith)
      simpa [taskAt_cons_succ] using this)
    by_cases hr : s ≤ idx ∧ idx < e
    · have hhead : t.status ≠ st := by
        have := h 0 (by simp) (by simpa using hr.1) (by simpa using hr.2)
        simpa [taskAt_cons_zero] using this
      simp only [setAvailableRange, if_pos hr, countStatus_cons, htail]
      have hav : ¬ (STATUS_AVAILABLE = st) := fun hc => hst hc.symm
      simp [hhead, hav]
    · simp only [setAvailableRange, if_neg hr, countStatus_cons, htail]

theorem nRetries_mem_setAvailableRange (s e : Int) (ts : List TaskInfo) (idx : Int) :
    ∀ u ∈ setAvailableRange s e ts idx, ∃ t ∈ ts, u.nRetries = t.nRetries := by
  induction ts generalizing idx with
  | nil => simp [setAvailableRange]
  | cons t ts ih =>
    intro u hu
    rcases List.mem_cons.mp hu with h1 | h1
    · refine ⟨t, List.mem_cons_self _ _, ?_⟩
      by_cases hr : s ≤ idx ∧ idx < e <;> simp [h1, hr]
    · rcases ih (idx + 1) u h1 with ⟨t1, ht1, h2⟩
      exact ⟨t1, List.mem_cons_of_mem _ ht1, h2⟩

theorem length_applyGrants (e : Int) (ts : List TaskInfo) (l : List (Nat × Int)) :
    (applyGrants e ts l).length = ts.length := by
  induction l generalizing ts with
  | nil => rfl
  | cons p rest ih =>
    obtain ⟨i, c⟩ := p
    simp [applyGrants, ih, length_modifyTask]

theorem taskAt_applyGrants_of_notmem (e : Int) (ts : List TaskInfo) (l : List (Nat × Int))
    (j : Nat) (h : ∀ p ∈ l, p.1 ≠ j) :
    taskAt (applyGrants e ts l) j = taskAt ts j := by
  induction l generalizing ts with
  | nil => rfl
  | cons p rest ih =>
    obtain ⟨i, c⟩ := p
    have hne : j ≠ i := fun hji => (h (i, c) (List.mem_cons_self _ _)) (by simp [hji])
    rw [applyGrants, ih _ (fun q hq => h q (List.mem_cons_of_mem _ hq)),
      taskAt_modifyTask_ne _ _ _ _ hne]

theorem taskAt_applyGrants_of_mem (e : Int) (ts : List TaskInfo) (l : List (Nat × Int))
    (i : Nat) (c : Int) (hnd : (l.map Prod.fst).Nodup) (hmem : (i, c) ∈ l)
    (hi : i < ts.length) :
    taskAt (applyGrants e ts l) i
      = { taskAt ts i with status := STATUS_ASSIGNED, cost := c, expiry := e } := by
  induction l generalizing ts with
  | nil => simp at hmem
  | cons p rest ih =>
    obtain ⟨j, d⟩ := p
    have hnd1 : (j :: rest.map Prod.fst).Nodup := by rw [List.map_cons] at hnd; exact hnd
    have hjnot : j ∉ rest.map Prod.fst := (List.nodup_cons.mp hnd1).1
    have hndrest : (rest.map Prod.fst).Nodup := (List.nodup_cons.mp hnd1).2
    rcases List.mem_cons.mp hmem with h1 | h1
    · injection h1 with hj hd
      subst hj; subst hd
      have hnotin : ∀ q ∈ rest, q.1 ≠ i := by
        intro q hq hqj
        exact hjnot (hqj ▸ List.mem_map_of_mem Prod.fst hq)
      rw [applyGrants, taskAt_applyGrants_of_notmem _ _ _ _ hnotin,
        taskAt_modifyTask_self _ _ _ hi]
    · have hne : i ≠ j := by
        intro hij
        exact hjnot (hij ▸ List.mem_map_of_mem Prod.fst h1)
      rw [applyGrants,
        ih (modifyTask ts j _) hndrest h1 (by rwa [length_modifyTask]),
        taskAt_modifyTask_ne _ _ _ _ hne]

theorem countStatus_applyGrants (e : Int) (ts : List TaskInfo) (l : List (Nat × Int))
    (hnd : (l.map Prod.fst).Nodup)
    (hav : ∀ p ∈ l, p.1 < ts.length ∧ (taskAt ts p.1).status = STATUS_AVAILABLE) :
    countStatus (applyGrants e ts l) STATUS_AVAILABLE
        = countStatus ts STATUS_AVAILABLE - (l.length : Int)
      ∧ countStatus (applyGrants e ts l) STATUS_ASSIGNED
        = countStatus ts STATUS_ASSIGNED + (l.length : Int)
      ∧ ∀ st, st ≠ STATUS_AVAILABLE → st ≠ STATUS_ASSIGNED →
          countStatus (applyGrants e ts l) st = countStatus ts st := by
  induction l generalizing ts with
  | nil => exact ⟨by simp [applyGrants], by simp [applyGrants], fun st _ _ => rfl⟩
  | cons p rest ih =>
    obtain ⟨i, c⟩ := p
    have hi : i < ts.length := (hav (i, c) (List.mem_cons_self _ _)).1
    have hist : (taskAt ts i).status = STATUS_AVAILABLE :=
      (hav (i, c) (List.mem_cons_self _ _)).2
    have hnd1 : (i :: rest.map Prod.fst).Nodup := by rw [List.map_cons] at hnd; exact hnd
    have hnotin : i ∉ rest.map Prod.fst := (List.nodup_cons.mp hnd1).1
    set ts1 := modifyTask ts i
      (fun t => { t with status := STATUS_ASSIGNED, cost := c, expiry := e }) with hts1
    have htail := ih ts1 (List.nodup_cons.mp hnd1).2 (by
      intro q hq
      have hqi : q.1 ≠ i := fun hqi => hnotin (hqi ▸ List.mem_map_of_mem Prod.fst hq)
      have := hav q (List.mem_cons_of_mem _ hq)
      refine ⟨by rw [hts1, length_modifyTask]; exact this.1, ?_⟩
      rw [hts1, taskAt_modifyTask_ne _ _ _ _ hqi]
      exact this.2)
    have hcnt : ∀ st, countStatus ts1 st
        = countStatus ts st
          + (if STATUS_ASSIGNED = st then 1 else 0)
          - (if STATUS_AVAILABLE = st then 1 else 0) := by
      intro st
      have := countStatus_modifyTask ts i
        (fun t => { t with status := STATUS_ASSIGNED, cost := c, expiry := e }) st hi
      rw [hts1, this, hist]
    refine ⟨?_, ?_, ?_⟩
    · rw [applyGrants, htail.1, hcnt STATUS_AVAILABLE]
      simp [STATUS_AVAILABLE, STATUS_ASSIGNED]
      omega
    · rw [applyGrants, htail.2.1, hcnt STATUS_ASSIGNED]
      simp [STATUS_AVAILABLE, STATUS_ASSIGNED]
      omega
    · intro st h1 h2
      rw [applyGrants, htail.2.2 st h1 h2, hcnt st]
      have e1 : ¬ (STATUS_ASSIGNED = st) := fun hc => h2 hc.symm
      have e2 : ¬ (STATUS_AVAILABLE = st) := fun hc => h1 hc.symm
      simp [e1, e2]

theorem nRetries_mem_applyGrants (e : Int) (ts : List TaskInfo) (l : List (Nat × Int)) :
    ∀ u ∈ applyGrants e ts l, ∃ t ∈ ts, u.nRetries = t.nRetries := by
  induction l generalizing ts with
  | nil => exact fun u hu => ⟨u, hu, rfl⟩
  | cons p rest ih =>
    obtain ⟨i, c⟩ := p
    intro u hu
    rcases ih _ u hu with ⟨t1, ht1, h1⟩
    rcases mem_modifyTask ts i _ t1 ht1 with h2 | ⟨t2, ht2, h2⟩
    · exact ⟨t1, h2, h1⟩
    · exact ⟨t2, ht2, by rw [h1, h2]⟩

theorem length_applyStatuses (ts : List TaskInfo) (l : List (Nat × Nat)) :
    (applyStatuses ts l).length = ts.length := by
  induction l generalizing ts with
  | nil => rfl
  | cons p rest ih =>
    obtain ⟨i, v⟩ := p
    simp [applyStatuses, ih, length_modifyTask]

theorem taskAt_applyStatuses_of_notmem (ts : List TaskInfo) (l : List (Nat × Nat))
    (j : Nat) (h : ∀ p ∈ l, p.1 ≠ j) :
    taskAt (applyStatuses ts l) j = taskAt ts j := by
  induction l generalizing ts with
  | nil => rfl
  | cons p rest ih =>
    obtain ⟨i, v⟩ := p
    have hne : j ≠ i := fun hji => (h (i, v) (List.mem_cons_self _ _)) (by simp [hji])
    rw [applyStatuses, ih _ (fun q hq => h q (List.mem_cons_of_mem _ hq)),
      taskAt_modifyTask_ne _ _ _ _ hne]

theorem status_taskAt_applyStatuses (ts : List TaskInfo) (l : List (Nat × Nat)) (i : Nat)
    (hv : ∀ p ∈ l, p.2 = STATUS_COMPLETE ∨ p.2 = STATUS_FAILED)
    (hi : (taskAt ts i).status = STATUS_ASSIGNED ∨ (taskAt ts i).status = STATUS_COMPLETE
          ∨ (taskAt ts i).status = STATUS_FAILED) :
    (taskAt (applyStatuses ts l) i).status = STATUS_ASSIGNED
      ∨ (taskAt (applyStatuses ts l) i).status = STATUS_COMPLETE
      ∨ (taskAt (applyStatuses ts l) i).status = STATUS_FAILED := by
  induction l generalizing ts with
  | nil => exact hi
  | cons p rest ih =>
    obtain ⟨j, v⟩ := p
    refine ih _ (fun q hq => hv q (List.mem_cons_of_mem _ hq)) ?_
    by_cases hij : i = j
    · subst hij
      by_cases hlen : i < ts.length
      · rw [taskAt_modifyTask_self _ _ _ hlen]
        rcases hv (i, v) (List.mem_cons_self _ _) with h | h
        · exact Or.inr (Or.inl h)
        · exact Or.inr (Or.inr h)
      · rw [taskAt_of_le _ _ (by rw [length_modifyTask]; omega)]
        rw [taskAt_of_le _ _ (by omega)] at hi
        exact hi
    · rwa [taskAt_modifyTask_ne _ _ _ _ hij]

theorem countStatus_applyStatuses (ts : List TaskInfo) (l : List (Nat × Nat))
    (hnd : (l.map Prod.fst).Nodup)
    (h : ∀ p ∈ l, p.1 < ts.length ∧ (taskAt ts p.1).status = STATUS_ASSIGNED
          ∧ (p.2 = STATUS_COMPLETE ∨ p.2 = STATUS_FAILED)) :
    countStatus (applyStatuses ts l) STATUS_ASSIGNED
        = countStatus ts STATUS_ASSIGNED - (l.length : Int)
      ∧ countStatus (applyStatuses ts l) STATUS_COMPLETE
        = countStatus ts STATUS_COMPLETE
            + ((l.filter (fun p => p.2 == STATUS_COMPLETE)).length : Int)
      ∧ countStatus (applyStatuses ts l) STATUS_FAILED
        = countStatus ts STATUS_FAILED
            + ((l.filter (fun p => p.2 == STATUS_FAILED)).length : Int)
      ∧ countStatus (applyStatuses ts l) STATUS_AVAILABLE
        = countStatus ts STATUS_AVAILABLE := by
  induction l generalizing ts with
  | nil => exact ⟨by simp [applyStatuses], by simp [applyStatuses],
      by simp [applyStatuses], rfl⟩
  | cons p rest ih =>
    obtain ⟨i, v⟩ := p
    have hi : i < ts.length := (h (i, v) (List.mem_cons_self _ _)).1
    have hist : (taskAt ts i).status = STATUS_ASSIGNED :=
      (h (i, v) (List.mem_cons_self _ _)).2.1
    have hv : v = STATUS_COMPLETE ∨ v = STATUS_FAILED :=
      (h (i, v) (List.mem_cons_self _ _)).2.2
    have hnd1 : (i :: rest.map Prod.fst).Nodup := by rw [List.map_cons] at hnd; exact hnd
    have hnotin : i ∉ rest.map Prod.fst := (List.nodup_cons.mp hnd1).1
    set ts1 := modifyTask ts i (fun t => { t with status := v }) with hts1
    have htail := ih ts1 (List.nodup_cons.mp hnd1).2 (by
      intro q hq
      have hqi : q.1 ≠ i := fun hqi => hnotin (hqi ▸ List.mem_map_of_mem Prod.fst hq)
      have := h q (List.mem_cons_of_mem _ hq)
      refine ⟨by rw [hts1, length_modifyTask]; exact this.1, ?_, this.2.2⟩
      rw [hts1, taskAt_modifyTask_ne _ _ _ _ hqi]
      exact this.2.1)
    have hcnt : ∀ st, countStatus ts1 st
        = countStatus ts st
          + (if v = st then 1 else 0)
          - (if STATUS_ASSIGNED = st then 1 else 0) := by
      intro st
      have := countStatus_modifyTask ts i (fun t => { t with status := v }) st hi
      rw [hts1, this, hist]
    have hv34 : v = 3 ∨ v = 4 := by
      simpa [STATUS_COMPLETE, STATUS_FAILED] using hv
    refine ⟨?_, ?_, ?_, ?_⟩
    · rw [applyStatuses, htail.1, hcnt STATUS_ASSIGNED]
      have hvne : ¬ (v = 2) := by omega
      simp [STATUS_ASSIGNED, hvne]
      omega
    · rw [applyStatuses, htail.2.1, hcnt STATUS_COMPLETE, List.filter_cons]
      by_cases h3 : v = 3
      · subst h3
        simp [STATUS_ASSIGNED, STATUS_COMPLETE]
        omega
      · simp [STATUS_ASSIGNED, STATUS_COMPLETE, h3]
    · rw [applyStatuses, htail.2.2.1, hcnt STATUS_FAILED, List.filter_cons]
      by_cases h4 : v = 4
      · subst h4
        simp [STATUS_ASSIGNED, STATUS_FAILED]
        omega
      · simp [STATUS_ASSIGNED, STATUS_FAILED, h4]
    · rw [applyStatuses, htail.2.2.2, hcnt STATUS_AVAILABLE]
      have h5 : ¬ (v = 1) := by omega
      simp [STATUS_ASSIGNED, STATUS_AVAILABLE, h5]

theorem nRetries_mem_applyStatuses (ts : List TaskInfo) (l : List (Nat × Nat)) :
    ∀ u ∈ applyStatuses ts l, ∃ t ∈ ts, u.nRetries = t.nRetries := by
  induction l generalizing ts with
  | nil => exact fun u hu => ⟨u, hu, rfl⟩
  | cons p rest ih =>
    obtain ⟨i, v⟩ := p
    intro u hu
    rcases ih _ u hu with ⟨t1, ht1, h1⟩
    rcases mem_modifyTask ts i _ t1 ht1 with h2 | ⟨t2, ht2, h2⟩
    · exact ⟨t1, h2, h1⟩
    · exact ⟨t2, ht2, by rw [h1, h2]⟩

theorem taskAt_map (g : TaskInfo → TaskInfo) (ts : List TaskInfo) (i : Nat)
    (h : i < ts.length) :
    taskAt (ts.map g) i = g (taskAt ts i) := by
  induction ts generalizing i with
  | nil => simp at h
  | cons t ts ih =>
    cases i with
    | zero => rfl
    | succ n => exact ih n (by simpa using h)

/-- Counting after `np`-style masked assignment: every task satisfying `p`
has status `a` and is rewritten to a task with status `b`. -/
theorem countStatus_map_ite (p : TaskInfo → Bool) (f : TaskInfo → TaskInfo)
    (ts : List TaskInfo) (a b : Nat)
    (hp : ∀ t, p t = true → t.status = a)
    (hf : ∀ t, p t = true → (f t).status = b) (hab : a ≠ b) (st : Nat) :
    countStatus (ts.map (fun t => if p t then f t else t)) st
      = (if st = a then countStatus ts st - (((ts.filter p).length : Nat) : Int)
         else if st = b then countStatus ts st + (((ts.filter p).length : Nat) : Int)
         else countStatus ts st) := by
  have hba : ¬ (b = a) := fun hc => hab hc.symm
  induction ts with
  | nil => by_cases h1 : st = a <;> by_cases h2 : st = b <;> simp [h1, h2]
  | cons t ts ih =>
    by_cases hpt : p t = true
    · have hta : t.status = a := hp t hpt
      have htb : (f t).status = b := hf t hpt
      have hmap : (t :: ts).map (fun u => if p u = true then f u else u)
          = f t :: ts.map (fun u => if p u = true then f u else u) := by
        rw [List.map_cons, if_pos hpt]
      have hfil : (t :: ts).filter p = t :: ts.filter p := List.filter_cons_of_pos hpt
      rw [hmap, countStatus_cons (f t), ih, hfil, countStatus_cons t ts st, htb, hta]
      by_cases h1 : st = a
      · simp [h1, hba]
        omega
      · by_cases h2 : st = b
        · simp [h2, hab, fun hc : a = b => hab hc, h1, fun hc : a = st => h1 hc.symm]
          omega
        · have e1 : ¬ (b = st) := fun hc => h2 hc.symm
          have e2 : ¬ (a = st) := fun hc => h1 hc.symm
          simp [h1, h2, e1, e2]
    · have hpf : p t = false := by revert hpt; cases p t <;> simp
      have hmap : (t :: ts).map (fun u => if p u = true then f u else u)
          = t :: ts.map (fun u => if p u = true then f u else u) := by
        rw [List.map_cons, if_neg hpt]
      have hfil : (t :: ts).filter p = ts.filter p := List.filter_cons_of_neg (by simp [hpf])
      rw [hmap, countStatus_cons t (ts.map _), ih, hfil, countStatus_cons t ts st]
      by_cases hts : t.status = st <;> by_cases h1 : st = a <;> by_cases h2 : st = b <;>
        simp [hts, h1, h2] <;> omega

theorem map_ite_of_none (p : TaskInfo → Bool) (f : TaskInfo → TaskInfo)
    (ts : List TaskInfo) (h : ∀ t ∈ ts, p t = false) :
    ts.map (fun t => if p t then f t else t) = ts := by
  induction ts with
  | nil => rfl
  | cons t ts ih =>
    rw [List.map_cons, if_neg (by simp [h t (List.mem_cons_self _ _)]),
      ih (fun u hu => h u (List.mem_cons_of_mem _ hu)), ]

theorem filter_eq_nil_of_none (p : TaskInfo → Bool) (ts : List TaskInfo)
    (h : ∀ t ∈ ts, p t = false) : ts.filter p = [] := by
  induction ts with
  | nil => rfl
  | cons t ts ih =>
    rw [List.filter_cons, if_neg (by simp [h t (List.mem_cons_self _ _)]),
      ih (fun u hu => h u (List.mem_cons_of_mem _ hu))]

theorem countStatus_replicate_zero (n : Nat) (st : Nat) (h : st ≠ 0) :
    countStatus (List.replicate n zeroTask) st = 0 := by
  induction n with
  | zero => rfl
  | succ m ih =>
    rw [List.replicate_succ, countStatus_cons, ih]
    have hz : ¬ (zeroTask.status = st) := by simp [zeroTask]; omega
    simp [hz]

theorem resolveId_lt (len : Nat) (v : Int) (i : Nat) (h : resolveId len v = some i) :
    i < len := by
  unfold resolveId at h
  by_cases h1 : 0 ≤ v ∧ v < (len : Int)
  · rw [if_pos h1] at h
    injection h with h2
    omega
  · rw [if_neg h1] at h
    by_cases h2 : -(len : Int) ≤ v ∧ v < 0
    · rw [if_pos h2] at h
      injection h with h3
      omega
    · rw [if_neg h2] at h
      exact absurd h (by simp)

theorem resolveId_of_nonneg (len : Nat) (v : Int) (h1 : 0 ≤ v) (h2 : v < (len : Int)) :
    resolveId len v = some v.toNat := by
  unfold resolveId
  rw [if_pos ⟨h1, h2⟩]

theorem resolveAll_of_nonneg (len : Nat) (l : List Int)
    (h : ∀ v ∈ l, 0 ≤ v ∧ v < (len : Int)) :
    resolveAll len l = some (l.map Int.toNat) := by
  induction l with
  | nil => rfl
  | cons v vs ih =>
    have hv := h v (List.mem_cons_self _ _)
    rw [List.map_cons, resolveAll, resolveId_of_nonneg len v hv.1 hv.2,
      ih (fun w hw => h w (List.mem_cons_of_mem _ hw))]

theorem resolveAll_length (len : Nat) (l : List Int) (l1 : List Nat)
    (h : resolveAll len l = some l1) : l1.length = l.length := by
  induction l generalizing l1 with
  | nil =>
    rw [resolveAll] at h
    injection h with h1
    rw [← h1]
    rfl
  | cons v vs ih =>
    rw [resolveAll] at h
    cases hrv : resolveId len v with
    | none => rw [hrv] at h; exact absurd h (by simp)
    | some i =>
      cases hra : resolveAll len vs with
      | none => rw [hrv, hra] at h; exact absurd h (by simp)
      | some is =>
        rw [hrv, hra] at h
        injection h with h1
        rw [← h1]
        simpa using ih is hra

theorem resolveAll_mem_lt (len : Nat) (l : List Int) (l1 : List Nat)
    (h : resolveAll len l = some l1) : ∀ i ∈ l1, i < len := by
  induction l generalizing l1 with
  | nil =>
    rw [resolveAll] at h
    injection h with h1
    rw [← h1]
    simp
  | cons v vs ih =>
    rw [resolveAll] at h
    cases hrv : resolveId len v with
    | none => rw [hrv] at h; exact absurd h (by simp)
    | some i =>
      cases hra : resolveAll len vs with
      | none => rw [hrv, hra] at h; exact absurd h (by simp)
      | some is =>
        rw [hrv, hra] at h
        injection h with h1
        rw [← h1]
        intro j hj
        rcases List.mem_cons.mp hj with h2 | h2
        · exact h2 ▸ resolveId_lt len v i hrv
        · exact ih is hra j h2

theorem length_bidTriples (vs : List Int) (is : List Nat) (cs : List Int) :
    (bidTriples vs is cs).length = min vs.length (min is.length cs.length) := by
  induction vs generalizing is cs with
  | nil => simp [bidTriples]
  | cons v vs ih =>
    cases is with
    | nil => simp [bidTriples]
    | cons i is =>
      cases cs with
      | nil => simp [bidTriples]
      | cons c cs =>
        simp [bidTriples, ih is cs]
        omega

theorem bidTriples_resolve (len : Nat) (vs : List Int) (is : List Nat) (cs : List Int)
    (h : resolveAll len vs = some is) :
    ∀ p ∈ bidTriples vs is cs, resolveId len p.1 = some p.2.1 := by
  induction vs generalizing is cs with
  | nil =>
    rw [resolveAll] at h
    injection h with h1
    subst h1
    simp [bidTriples]
  | cons v vs ih =>
    rw [resolveAll] at h
    cases hrv : resolveId len v with
    | none => rw [hrv] at h; exact absurd h (by simp)
    | some i =>
      cases hra : resolveAll len vs with
      | none => rw [hrv, hra] at h; exact absurd h (by simp)
      | some is1 =>
        rw [hrv, hra] at h
        injection h with h1
        subst h1
        cases cs with
        | nil => simp [bidTriples]
        | cons c cs =>
          intro p hp
          rcases List.mem_cons.mp hp with h2 | h2
          · rw [h2]
            exact hrv
          · exact ih is1 cs hra p h2

theorem bidTriples_snd_mem (vs : List Int) (is : List Nat) (cs : List Int) :
    ∀ p ∈ bidTriples vs is cs, p.2.1 ∈ is := by
  induction vs generalizing is cs with
  | nil => simp [bidTriples]
  | cons v vs ih =>
    cases is with
    | nil => simp [bidTriples]
    | cons i is =>
      cases cs with
      | nil => simp [bidTriples]
      | cons c cs =>
        intro p hp
        rcases List.mem_cons.mp hp with h2 | h2
        · rw [h2]; exact List.mem_cons_self _ _
        · exact List.mem_cons_of_mem _ (ih is cs p h2)

theorem bidTriples_snd_sublist (vs : List Int) (is : List Nat) (cs : List Int) :
    ((bidTriples vs is cs).map (fun p => p.2.1)).Sublist is := by
  induction vs generalizing is cs with
  | nil => simp [bidTriples]
  | cons v vs ih =>
    cases is with
    | nil => simp [bidTriples]
    | cons i is =>
      cases cs with
      | nil => simp [bidTriples]
      | cons c cs =>
        rw [bidTriples, List.map_cons]
        exact List.Sublist.cons₂ i (ih is cs)

theorem filter_snd_zip_length (q : Nat → Bool) (l : List Nat) (m : List Nat)
    (h : l.length = m.length) :
    ((l.zip m).filter (fun p => q p.2)).length = (m.filter q).length := by
  induction l generalizing m with
  | nil =>
    cases m with
    | nil => rfl
    | cons v vs => simp at h
  | cons i is ih =>
    cases m with
    | nil => simp at h
    | cons v vs =>
      rw [List.zip_cons_cons, List.filter_cons, List.filter_cons]
      by_cases hq : q v = true
      · simp only [hq, if_pos]
        simp [ih vs (by simpa using h)]
      · have hq2 : q v = false := by revert hq; cases q v <;> simp
        simp only [hq2]
        simp [ih vs (by simpa using h)]

theorem map_eq_self_of {α : Type} (f : α → α) (l : List α) (h : ∀ v ∈ l, f v = v) :
    l.map f = l := by
  induction l with
  | nil => rfl
  | cons v vs ih =>
    rw [List.map_cons, h v (List.mem_cons_self _ _),
      ih (fun w hw => h w (List.mem_cons_of_mem _ hw))]

theorem nodup_toNat_map (l : List Int) (hnn : ∀ v ∈ l, 0 ≤ v) (h : l.Nodup) :
    (l.map Int.toNat).Nodup := by
  refine List.Nodup.map_on ?_ h
  intro x hx y hy hxy
  have := hnn x hx
  have := hnn y hy
  omega

theorem mem_availableTaskIDs (r : IntegerIDRule) (i : Nat) :
    i ∈ availableTaskIDs r ↔ i < r.tasks.length ∧ (taskAt r.tasks i).status = STATUS_AVAILABLE := by
  unfold availableTaskIDs
  rw [List.mem_filter, List.mem_range]
  simp

/-! ## Per-operation preservation of the counter invariant -/

theorem inv_makeRangeAvailable (r : IntegerIDRule) (s e : Int) (now : Int)
    (hwf : wfStrong r (.makeRangeAvailable s e now) = true)
    (hc : countersOK r) (hr : retriesLe r) :
    countersOK (applyOp r (.makeRangeAvailable s e now))
      ∧ retriesLe (applyOp r (.makeRangeAvailable s e now)) := by
  rw [wfStrong, decide_eq_true_eq] at hwf
  obtain ⟨hs0, hsl, he0, hel, hrange⟩ := hwf
  have hok : ¬ (s < 0 ∨ s > (r.tasks.length : Int) ∨ e < 0 ∨ e > (r.tasks.length : Int)) := by
    push_neg
    exact ⟨by omega, by omega, by omega, by omega⟩
  have happ : applyOp r (.makeRangeAvailable s e now)
      = { r with tasks := setAvailableRange s e r.tasks 0
                 nTotal := (((setAvailableRange s e r.tasks 0).filter
                     (fun t => 0 < t.status)).length : Int)
                 nAvailable := countStatus (setAvailableRange s e r.tasks 0) STATUS_AVAILABLE
                 nAssigned := countStatus (setAvailableRange s e r.tasks 0) STATUS_ASSIGNED
                 expiry := now + r.rule_timeout } := by
    simp only [applyOp, make_range_available, if_neg hok, update_nums]
  have hnottouch : ∀ (st : Nat), st ≠ STATUS_AVAILABLE →
      (st = STATUS_COMPLETE ∨ st = STATUS_FAILED) →
      countStatus (setAvailableRange s e r.tasks 0) st = countStatus r.tasks st := by
    intro st hst hcf
    refine countStatus_setAvailableRange_of_ne s e r.tasks 0 st hst ?_
    intro k hk h1 h2
    have hcase := hrange k hk (by simpa using h1) (by simpa using h2)
    rcases hcf with h4 | h4
    · rw [h4]; exact hcase.1
    · rw [h4]; exact hcase.2
  constructor
  · rw [happ]
    refine ⟨rfl, rfl, ?_, ?_⟩
    · have := hnottouch STATUS_COMPLETE (by simp [STATUS_COMPLETE, STATUS_AVAILABLE]) (Or.inl rfl)
      simp only []
      rw [this]
      exact hc.2.2.1
    · have := hnottouch STATUS_FAILED (by simp [STATUS_FAILED, STATUS_AVAILABLE]) (Or.inr rfl)
      simp only []
      rw [this]
      exact hc.2.2.2
  · rw [happ]
    intro u hu
    rcases nRetries_mem_setAvailableRange s e r.tasks 0 u hu with ⟨t, ht, hrt⟩
    have := hr t ht
    show u.nRetries ≤ r.n_retries
    omega

theorem update_cost_tasks (r : IntegerIDRule) : (update_cost r).tasks = r.tasks := rfl

theorem update_cost_counters (r : IntegerIDRule) :
    (update_cost r).nAvailable = r.nAvailable ∧ (update_cost r).nAssigned = r.nAssigned
      ∧ (update_cost r).nCompleted = r.nCompleted ∧ (update_cost r).nFailed = r.nFailed :=
  ⟨rfl, rfl, rfl, rfl⟩

theorem grants_mem_status (r : IntegerIDRule) (taskIDs : List Int) (resolved : List Nat)
    (costs : List Int) (hres : resolveAll r.tasks.length taskIDs = some resolved) :
    ∀ q ∈ ((bidTriples taskIDs resolved costs).filter
        (fun p => (taskAt r.tasks p.2.1).status == STATUS_AVAILABLE)).map (fun p => p.2),
      q.1 < r.tasks.length ∧ (taskAt r.tasks q.1).status = STATUS_AVAILABLE := by
  intro q hq
  rcases List.mem_map.mp hq with ⟨p, hp, hq2⟩
  have h1 := List.mem_filter.mp hp
  have h2 : p.2.1 ∈ resolved := bidTriples_snd_mem _ _ _ p h1.1
  have h3 : p.2.1 < r.tasks.length := resolveAll_mem_lt _ _ _ hres p.2.1 h2
  rw [← hq2]
  exact ⟨h3, by simpa using h1.2⟩

theorem grants_fst_nodup (taskIDs : List Int) (resolved : List Nat) (costs : List Int)
    (φ : Int × Nat × Int → Bool) (hnd : resolved.Nodup) :
    ((((bidTriples taskIDs resolved costs).filter φ).map (fun p => p.2)).map Prod.fst).Nodup := by
  have h1 : (((bidTriples taskIDs resolved costs).filter φ).map (fun p => p.2.1)).Sublist
      ((bidTriples taskIDs resolved costs).map (fun p => p.2.1)) :=
    (List.filter_sublist _).map _
  have h2 := bidTriples_snd_sublist taskIDs resolved costs
  have h3 := (h1.trans h2).nodup hnd
  simpa [List.map_map, Function.comp] using h3

theorem inv_bid (r : IntegerIDRule) (taskIDs : List Int) (costs : List Int) (now : Int)
    (hwf : wfStrong r (.bid taskIDs costs now) = true)
    (hc : countersOK r) (hr : retriesLe r) :
    countersOK (applyOp r (.bid taskIDs costs now))
      ∧ retriesLe (applyOp r (.bid taskIDs costs now)) := by
  rw [wfStrong, decide_eq_true_eq] at hwf
  obtain ⟨hnd, hlen, hids⟩ := hwf
  by_cases hact : r.active = true
  case neg =>
    have hact2 : r.active = false := by revert hact; cases r.active <;> simp
    have : applyOp r (.bid taskIDs costs now) = r := by
      simp [applyOp, IntegerIDRule.bid, hact2]
    rw [this]
    exact ⟨hc, hr⟩
  case pos =>
    have hres : resolveAll r.tasks.length taskIDs = some (taskIDs.map Int.toNat) :=
      resolveAll_of_nonneg _ _ (fun v hv => hids v hv)
    have hlen2 : ¬ (taskIDs.length ≠ costs.length) := by simp [hlen]
    have happ : applyOp r (.bid taskIDs costs now)
        = (update_cost { r with
            tasks := applyGrants (now + r.timeout) r.tasks
              (((bidTriples taskIDs (taskIDs.map Int.toNat) costs).filter
                  (fun p => (taskAt r.tasks p.2.1).status == STATUS_AVAILABLE)).map
                (fun p => p.2))
            nAvailable := r.nAvailable
              - ((((bidTriples taskIDs (taskIDs.map Int.toNat) costs).filter
                  (fun p => (taskAt r.tasks p.2.1).status == STATUS_AVAILABLE)).map
                (fun p => p.2)).length : Int)
            nAssigned := r.nAssigned
              + ((((bidTriples taskIDs (taskIDs.map Int.toNat) costs).filter
                  (fun p => (taskAt r.tasks p.2.1).status == STATUS_AVAILABLE)).map
                (fun p => p.2)).length : Int) }
           |> fun r2 => { r2 with expiry := now + r.rule_timeout }) := by
      simp only [applyOp, IntegerIDRule.bid, hact, Bool.not_true, if_neg hlen2, hres]
      rfl
    set grants := ((bidTriples taskIDs (taskIDs.map Int.toNat) costs).filter
        (fun p => (taskAt r.tasks p.2.1).status == STATUS_AVAILABLE)).map
      (fun p => p.2) with hgr
    have hcounts := countStatus_applyGrants (now + r.timeout) r.tasks grants
      (grants_fst_nodup taskIDs (taskIDs.map Int.toNat) costs _
        (nodup_toNat_map taskIDs (fun v hv => (hids v hv).1) hnd))
      (grants_mem_status r taskIDs (taskIDs.map Int.toNat) costs hres)
    constructor
    · rw [happ]
      refine ⟨?_, ?_, ?_, ?_⟩
      · show r.nAvailable - (grants.length : Int)
            = countStatus (applyGrants (now + r.timeout) r.tasks grants) STATUS_AVAILABLE
        rw [hcounts.1, hc.1]
      · show r.nAssigned + (grants.length : Int)
            = countStatus (applyGrants (now + r.timeout) r.tasks grants) STATUS_ASSIGNED
        rw [hcounts.2.1, hc.2.1]
      · show r.nCompleted
            = countStatus (applyGrants (now + r.timeout) r.tasks grants) STATUS_COMPLETE
        rw [hcounts.2.2 STATUS_COMPLETE (by simp [STATUS_COMPLETE, STATUS_AVAILABLE])
          (by simp [STATUS_COMPLETE, STATUS_ASSIGNED]), hc.2.2.1]
      · show r.nFailed
            = countStatus (applyGrants (now + r.timeout) r.tasks grants) STATUS_FAILED
        rw [hcounts.2.2 STATUS_FAILED (by simp [STATUS_FAILED, STATUS_AVAILABLE])
          (by simp [STATUS_FAILED, STATUS_ASSIGNED]), hc.2.2.2]
    · rw [happ]
      intro u hu
      have hu2 : u ∈ applyGrants (now + r.timeout) r.tasks grants := hu
      rcases nRetries_mem_applyGrants (now + r.timeout) r.tasks grants u hu2 with ⟨t, ht, hrt⟩
      have := hr t ht
      show u.nRetries ≤ r.n_retries
      omega

theorem inv_markComplete (r : IntegerIDRule) (ids : List Int) (sts : List Nat) (now : Int)
    (hwf : wfStrong r (.markComplete ids sts now) = true)
    (hc : countersOK r) (hr : retriesLe r) :
    countersOK (applyOp r (.markComplete ids sts now))
      ∧ retriesLe (applyOp r (.markComplete ids sts now)) := by
  rw [wfStrong, decide_eq_true_eq] at hwf
  obtain ⟨hnd, hlen, hids, hsts⟩ := hwf
  have hres : resolveAll r.tasks.length ids = some (ids.map Int.toNat) :=
    resolveAll_of_nonneg _ _ (fun v hv => ⟨(hids v hv).1, (hids v hv).2.1⟩)
  have hmod : sts.map (fun v => v % 256) = sts := map_eq_self_of _ _ (by
    intro v hv
    rcases hsts v hv with h | h <;> rw [h] <;> rfl)
  have hlen2 : ¬ (ids.length ≠ sts.length) := by simp [hlen]
  have happ : applyOp r (.markComplete ids sts now)
      = { r with tasks := applyStatuses r.tasks ((ids.map Int.toNat).zip sts)
                 nCompleted := r.nCompleted
                   + ((sts.filter (fun v => v == STATUS_COMPLETE)).length : Int)
                 nFailed := r.nFailed
                   + ((sts.filter (fun v => v == STATUS_FAILED)).length : Int)
                 nAssigned := r.nAssigned - (ids.length : Int)
                 expiry := now + r.rule_timeout } := by
    simp only [applyOp, mark_complete, hmod, hres, if_neg hlen2]
  have hlenr : (ids.map Int.toNat).length = sts.length := by
    rw [List.length_map]; exact hlen
  have hpairs : ∀ p ∈ (ids.map Int.toNat).zip sts,
      p.1 < r.tasks.length ∧ (taskAt r.tasks p.1).status = STATUS_ASSIGNED
        ∧ (p.2 = STATUS_COMPLETE ∨ p.2 = STATUS_FAILED) := by
    intro p hp
    have h1 := List.of_mem_zip hp
    rcases List.mem_map.mp h1.1 with ⟨w, hw, hw2⟩
    have h2 := hids w hw
    refine ⟨?_, ?_, hsts p.2 h1.2⟩
    · rw [← hw2]; omega
    · rw [← hw2]; exact h2.2.2
  have hndp : (((ids.map Int.toNat).zip sts).map Prod.fst).Nodup := by
    rw [List.map_fst_zip _ _ (by omega)]
    exact nodup_toNat_map ids (fun v hv => (hids v hv).1) hnd
  have hcounts := countStatus_applyStatuses r.tasks ((ids.map Int.toNat).zip sts) hndp hpairs
  have hziplen : ((ids.map Int.toNat).zip sts).length = ids.length := by
    rw [List.length_zip]
    omega
  constructor
  · rw [happ]
    refine ⟨?_, ?_, ?_, ?_⟩
    · show r.nAvailable = countStatus (applyStatuses r.tasks ((ids.map Int.toNat).zip sts))
        STATUS_AVAILABLE
      rw [hcounts.2.2.2, hc.1]
    · show r.nAssigned - (ids.length : Int)
        = countStatus (applyStatuses r.tasks ((ids.map Int.toNat).zip sts)) STATUS_ASSIGNED
      rw [hcounts.1, hc.2.1, hziplen]
    · show r.nCompleted + ((sts.filter (fun v => v == STATUS_COMPLETE)).length : Int)
        = countStatus (applyStatuses r.tasks ((ids.map Int.toNat).zip sts)) STATUS_COMPLETE
      rw [hcounts.2.1, hc.2.2.1,
        filter_snd_zip_length (fun v => v == STATUS_COMPLETE) _ _ hlenr]
    · show r.nFailed + ((sts.filter (fun v => v == STATUS_FAILED)).length : Int)
        = countStatus (applyStatuses r.tasks ((ids.map Int.toNat).zip sts)) STATUS_FAILED
      rw [hcounts.2.2.1, hc.2.2.2,
        filter_snd_zip_length (fun v => v == STATUS_FAILED) _ _ hlenr]
  · rw [happ]
    intro u hu
    have hu2 : u ∈ applyStatuses r.tasks ((ids.map Int.toNat).zip sts) := hu
    rcases nRetries_mem_applyStatuses r.tasks _ u hu2 with ⟨t, ht, hrt⟩
    have := hr t ht
    show u.nRetries ≤ r.n_retries
    omega

theorem inv_pollTimeouts (r : IntegerIDRule) (t : Int)
    (hwf : wfStrong r (.pollTimeouts t) = true)
    (hc : countersOK r) (hr : retriesLe r) :
    countersOK (applyOp r (.pollTimeouts t))
      ∧ retriesLe (applyOp r (.pollTimeouts t)) := by
  rw [wfStrong, decide_eq_true_eq] at hwf
  by_cases hpos : 0 < (r.tasks.filter (timedOut t)).length
  case neg =>
    have : applyOp r (.pollTimeouts t) = r := by
      simp only [applyOp, poll_timeouts, if_neg hpos]
    rw [this]
    exact ⟨hc, hr⟩
  case pos =>
    set tasks1 := r.tasks.map (fun task =>
      if timedOut t task then
        { task with status := STATUS_AVAILABLE, nRetries := (task.nRetries + 1) % 256 }
      else task) with htasks1
    have hret1 : ∀ u ∈ tasks1, u.nRetries ≤ r.n_retries := by
      intro u hu
      rcases List.mem_map.mp hu with ⟨orig, horig, heq⟩
      by_cases htd : timedOut t orig = true
      · have h1 := hwf orig horig htd
        rw [← heq, if_pos htd]
        show (orig.nRetries + 1) % 256 ≤ r.n_retries
        have h2 : (orig.nRetries + 1) % 256 ≤ orig.nRetries + 1 := Nat.mod_le _ _
        omega
      · rw [← heq, if_neg htd]
        exact hr orig horig
    have hrf : ∀ u ∈ tasks1, retryFailed r.n_retries u = false := by
      intro u hu
      have := hret1 u hu
      simp [retryFailed]
      omega
    have htasks2 : tasks1.map (fun task =>
        if retryFailed r.n_retries task then { task with status := STATUS_FAILED } else task)
          = tasks1 := map_ite_of_none _ _ _ hrf
    have hnf : (tasks1.filter (retryFailed r.n_retries)).length = 0 := by
      rw [filter_eq_nil_of_none _ _ hrf]
      rfl
    have happ : applyOp r (.pollTimeouts t)
        = { r with tasks := tasks1
                   nAssigned := r.nAssigned - ((r.tasks.filter (timedOut t)).length : Int)
                   nAvailable := r.nAvailable + ((r.tasks.filter (timedOut t)).length : Int)
                     - ((tasks1.filter (retryFailed r.n_retries)).length : Int) } := by
      simp only [applyOp, poll_timeouts, if_pos hpos, htasks1, htasks2]
    have hcnt := countStatus_map_ite (timedOut t) (fun task =>
        { task with status := STATUS_AVAILABLE, nRetries := (task.nRetries + 1) % 256 })
      r.tasks STATUS_ASSIGNED STATUS_AVAILABLE
      (fun task htd => by
        have := (Bool.and_eq_true _ _).mp htd
        simpa using this.1)
      (fun task _ => rfl)
      (by simp [STATUS_ASSIGNED, STATUS_AVAILABLE])
    constructor
    · rw [happ]
      refine ⟨?_, ?_, ?_, ?_⟩
      · show r.nAvailable + ((r.tasks.filter (timedOut t)).length : Int)
            - ((tasks1.filter (retryFailed r.n_retries)).length : Int)
          = countStatus tasks1 STATUS_AVAILABLE
        rw [hnf, htasks1, hcnt STATUS_AVAILABLE]
        have h1 : ¬ (STATUS_AVAILABLE = STATUS_ASSIGNED) := by
          simp [STATUS_ASSIGNED, STATUS_AVAILABLE]
        rw [if_neg h1, if_pos rfl, hc.1]
        push_cast
        ring
      · show r.nAssigned - ((r.tasks.filter (timedOut t)).length : Int)
          = countStatus tasks1 STATUS_ASSIGNED
        rw [htasks1, hcnt STATUS_ASSIGNED, if_pos rfl, hc.2.1]
      · show r.nCompleted = countStatus tasks1 STATUS_COMPLETE
        rw [htasks1, hcnt STATUS_COMPLETE]
        have h1 : ¬ (STATUS_COMPLETE = STATUS_ASSIGNED) := by
          simp [STATUS_ASSIGNED, STATUS_COMPLETE]
        have h2 : ¬ (STATUS_COMPLETE = STATUS_AVAILABLE) := by
          simp [STATUS_AVAILABLE, STATUS_COMPLETE]
        rw [if_neg h1, if_neg h2, hc.2.2.1]
      · show r.nFailed = countStatus tasks1 STATUS_FAILED
        rw [htasks1, hcnt STATUS_FAILED]
        have h1 : ¬ (STATUS_FAILED = STATUS_ASSIGNED) := by
          simp [STATUS_ASSIGNED, STATUS_FAILED]
        have h2 : ¬ (STATUS_FAILED = STATUS_AVAILABLE) := by
          simp [STATUS_AVAILABLE, STATUS_FAILED]
        rw [if_neg h1, if_neg h2, hc.2.2.2]
    · rw [happ]
      intro u hu
      have hu2 : u ∈ tasks1 := hu
      have := hret1 u hu2
      show u.nRetries ≤ r.n_retries
      omega

theorem inv_applyOp (r : IntegerIDRule) (op : RuleOp) (hwf : wfStrong r op = true)
    (hc : countersOK r) (hr : retriesLe r) :
    countersOK (applyOp r op) ∧ retriesLe (applyOp r op) := by
  cases op with
  | makeRangeAvailable s e now => exact inv_makeRangeAvailable r s e now hwf hc hr
  | bid ids costs now => exact inv_bid r ids costs now hwf hc hr
  | markComplete ids sts now => exact inv_markComplete r ids sts now hwf hc hr
  | pollTimeouts t2 => exact inv_pollTimeouts r t2 hwf hc hr

theorem inv_run (r : IntegerIDRule) (ops : List RuleOp) (hwf : wfRun r ops = true)
    (hc : countersOK r) (hr : retriesLe r) :
    countersOK (run r ops) ∧ retriesLe (run r ops) := by
  induction ops generalizing r with
  | nil => exact ⟨hc, hr⟩
  | cons op rest ih =>
    rw [wfRun, Bool.and_eq_true] at hwf
    have step := inv_applyOp r op hwf.1 hc hr
    exact ih (applyOp r op) hwf.2 step.1 step.2

theorem inv_init (ruleID task_template : String)
    (inputs_by_task : Option (List (Nat × String))) (max_task_ID : Nat)
    (task_timeout rule_timeout : Int) (on_completion : Option OnCompletion)
    (datasource_complete : Bool) (n_retries : Nat) (now : Int) :
    countersOK (IntegerIDRule.init ruleID task_template inputs_by_task max_task_ID
        task_timeout rule_timeout on_completion datasource_complete n_retries now)
      ∧ retriesLe (IntegerIDRule.init ruleID task_template inputs_by_task max_task_ID
        task_timeout rule_timeout on_completion datasource_complete n_retries now) := by
  constructor
  · refine ⟨?_, ?_, ?_, ?_⟩ <;>
      rw [show (IntegerIDRule.init ruleID task_template inputs_by_task max_task_ID
          task_timeout rule_timeout on_completion datasource_complete n_retries now).tasks
        = List.replicate max_task_ID zeroTask from rfl]
    · rw [countStatus_replicate_zero _ _ (by simp [STATUS_AVAILABLE])]; rfl
    · rw [countStatus_replicate_zero _ _ (by simp [STATUS_ASSIGNED])]; rfl
    · rw [countStatus_replicate_zero _ _ (by simp [STATUS_COMPLETE])]; rfl
    · rw [countStatus_replicate_zero _ _ (by simp [STATUS_FAILED])]; rfl
  · intro u hu
    have := List.eq_of_mem_replicate hu
    rw [this]
    exact Nat.zero_le _

/-! ## Status persistence of claimed tasks (no double grant) -/

theorem status_claimed_applyOp (r : IntegerIDRule) (op : RuleOp) (i : Nat)
    (hwf : wfOp op = true) (hrel : releasesTask r op i = false)
    (h : (taskAt r.tasks i).status = STATUS_ASSIGNED
          ∨ (taskAt r.tasks i).status = STATUS_COMPLETE
          ∨ (taskAt r.tasks i).status = STATUS_FAILED) :
    (taskAt (applyOp r op).tasks i).status = STATUS_ASSIGNED
      ∨ (taskAt (applyOp r op).tasks i).status = STATUS_COMPLETE
      ∨ (taskAt (applyOp r op).tasks i).status = STATUS_FAILED := by
  have hlen : i < r.tasks.length := by
    by_contra hcon
    rw [taskAt_of_le _ _ (by omega)] at h
    simp [zeroTask, STATUS_ASSIGNED, STATUS_COMPLETE, STATUS_FAILED] at h
  cases op with
  | makeRangeAvailable s e now =>
    by_cases hv : s < 0 ∨ s > (r.tasks.length : Int) ∨ e < 0 ∨ e > (r.tasks.length : Int)
    · have : applyOp r (.makeRangeAvailable s e now) = r := by
        simp only [applyOp, make_range_available, if_pos hv]
      rwa [this]
    · have hcov : ¬ (s ≤ (i : Int) ∧ (i : Int) < e) := by
        rw [releasesTask] at hrel
        intro hcon
        have hvb : (decide (s < 0) || decide (s > (r.tasks.length : Int))
            || decide (e < 0) || decide (e > (r.tasks.length : Int))) = false := by
          push_neg at hv
          simp only [Bool.or_eq_false_iff, decide_eq_false_iff_not]
          exact ⟨⟨⟨by omega, by omega⟩, by omega⟩, by omega⟩
        rw [hvb] at hrel
        simp [hcon.1, hcon.2] at hrel
      have happ : (applyOp r (.makeRangeAvailable s e now)).tasks
          = setAvailableRange s e r.tasks 0 := by
        simp only [applyOp, make_range_available, if_neg hv, update_nums]
      rw [happ, taskAt_setAvailableRange s e r.tasks 0 i hlen]
      rw [if_neg (by simpa using hcov)]
      exact h
  | bid taskIDs costs now =>
    by_cases hact : r.active = true
    case neg =>
      have hact2 : r.active = false := by revert hact; cases r.active <;> simp
      have : applyOp r (.bid taskIDs costs now) = r := by
        simp [applyOp, IntegerIDRule.bid, hact2]
      rwa [this]
    case pos =>
      cases hres : resolveAll r.tasks.length taskIDs with
      | none =>
        have : applyOp r (.bid taskIDs costs now) = r := by
          simp only [applyOp, IntegerIDRule.bid, hact, Bool.not_true, hres]
          rfl
        rwa [this]
      | some resolved =>
        by_cases hlen2 : taskIDs.length ≠ costs.length
        · have : applyOp r (.bid taskIDs costs now) = r := by
            simp only [applyOp, IntegerIDRule.bid, hact, Bool.not_true, hres, if_pos hlen2]
            rfl
          rwa [this]
        · have happ : (applyOp r (.bid taskIDs costs now)).tasks
              = applyGrants (now + r.timeout) r.tasks
                  (((bidTriples taskIDs resolved costs).filter
                      (fun p => (taskAt r.tasks p.2.1).status == STATUS_AVAILABLE)).map
                    (fun p => p.2)) := by
            simp only [applyOp, IntegerIDRule.bid, hact, Bool.not_true, hres, if_neg hlen2]
            rfl
          rw [happ, taskAt_applyGrants_of_notmem]
          · exact h
          · intro p hp hpi
            have := grants_mem_status r taskIDs resolved costs hres p hp
            rw [hpi] at this
            rcases h with h1 | h1 | h1 <;> rw [h1] at this <;>
              simp [STATUS_ASSIGNED, STATUS_COMPLETE, STATUS_FAILED, STATUS_AVAILABLE]
                at this
  | markComplete taskIDs sts now =>
    have hsts : ∀ v ∈ sts, v = STATUS_COMPLETE ∨ v = STATUS_FAILED := by
      rw [wfOp, List.all_eq_true] at hwf
      intro v hv
      have := hwf v hv
      rcases (Bool.or_eq_true _ _).mp this with h1 | h1
      · exact Or.inl (by simpa using h1)
      · exact Or.inr (by simpa using h1)
    cases hres : resolveAll r.tasks.length taskIDs with
    | none =>
      have : applyOp r (.markComplete taskIDs sts now) = r := by
        simp only [applyOp, mark_complete, hres]
      rwa [this]
    | some resolved =>
      by_cases hlen2 : taskIDs.length ≠ sts.length
      · have : applyOp r (.markComplete taskIDs sts now) = r := by
          simp only [applyOp, mark_complete, hres, if_pos hlen2]
        rwa [this]
      · have happ : (applyOp r (.markComplete taskIDs sts now)).tasks
            = applyStatuses r.tasks (resolved.zip (sts.map (fun v => v % 256))) := by
          simp only [applyOp, mark_complete, hres, if_neg hlen2]
        rw [happ]
        refine status_taskAt_applyStatuses r.tasks _ i ?_ h
        intro p hp
        have h1 := (List.of_mem_zip hp).2
        rcases List.mem_map.mp h1 with ⟨w, hw, hw2⟩
        rcases hsts w hw with h2 | h2 <;> rw [← hw2, h2] <;> [exact Or.inl rfl; exact Or.inr rfl]
  | pollTimeouts t =>
    have htd : timedOut t (taskAt r.tasks i) = false := by
      rw [releasesTask] at hrel
      exact hrel
    by_cases hpos : 0 < (r.tasks.filter (timedOut t)).length
    case neg =>
      have : applyOp r (.pollTimeouts t) = r := by
        simp only [applyOp, poll_timeouts, if_neg hpos]
      rwa [this]
    case pos =>
      have happ : (applyOp r (.pollTimeouts t)).tasks
          = (r.tasks.map (fun task =>
              if timedOut t task then
                { task with status := STATUS_AVAILABLE, nRetries := (task.nRetries + 1) % 256 }
              else task)).map (fun task =>
              if retryFailed r.n_retries task then { task with status := STATUS_FAILED }
              else task) := by
        simp only [applyOp, poll_timeouts, if_pos hpos]
      rw [happ, taskAt_map _ _ i (by rw [List.length_map]; exact hlen),
        taskAt_map _ _ i hlen]
      simp only [htd, Bool.false_eq_true, if_false]
      by_cases hrf : retryFailed r.n_retries (taskAt r.tasks i) = true
      · rw [if_pos hrf]
        exact Or.inr (Or.inr rfl)
      · rw [if_neg hrf]
        exact h

theorem not_granted_of_claimed (r : IntegerIDRule) (op : RuleOp) (i : Nat)
    (h : (taskAt r.tasks i).status = STATUS_ASSIGNED
          ∨ (taskAt r.tasks i).status = STATUS_COMPLETE
          ∨ (taskAt r.tasks i).status = STATUS_FAILED) :
    (grantedBy r op).any (fun v => resolveId r.tasks.length v == some i) = false := by
  cases op with
  | makeRangeAvailable s e now => rfl
  | markComplete ids sts now => rfl
  | pollTimeouts t => rfl
  | bid taskIDs costs now =>
    rw [← Bool.not_eq_true, List.any_eq_true]
    rintro ⟨v, hv, hres2⟩
    have hres3 : resolveId r.tasks.length v = some i := by simpa using hres2
    rw [grantedBy] at hv
    by_cases hact : r.active = true
    case neg =>
      have hact2 : r.active = false := by revert hact; cases r.active <;> simp
      simp [IntegerIDRule.bid, hact2] at hv
    case pos =>
      cases hres : resolveAll r.tasks.length taskIDs with
      | none =>
        rw [show (r.bid taskIDs costs now).2 = [] by
          simp only [IntegerIDRule.bid, hact, Bool.not_true, hres]; rfl] at hv
        simp at hv
      | some resolved =>
        by_cases hlen2 : taskIDs.length ≠ costs.length
        · rw [show (r.bid taskIDs costs now).2 = [] by
            simp only [IntegerIDRule.bid, hact, Bool.not_true, hres, if_pos hlen2]; rfl] at hv
          simp at hv
        · rw [show (r.bid taskIDs costs now).2
              = ((bidTriples taskIDs resolved costs).filter
                  (fun p => (taskAt r.tasks p.2.1).status == STATUS_AVAILABLE)).map
                (fun p => p.1) by
            simp only [IntegerIDRule.bid, hact, Bool.not_true, hres, if_neg hlen2]; rfl] at hv
          rcases List.mem_map.mp hv with ⟨p, hp, hp2⟩
          have h1 := List.mem_filter.mp hp
          have h2 : (taskAt r.tasks p.2.1).status = STATUS_AVAILABLE := by simpa using h1.2
          have h3 : resolveId r.tasks.length p.1 = some p.2.1 :=
            bidTriples_resolve r.tasks.length taskIDs resolved costs hres p h1.1
          rw [hp2, hres3] at h3
          injection h3 with h4
          rw [← h4] at h2
          rcases h with h5 | h5 | h5 <;> rw [h5] at h2
          · exact absurd h2 (by simp [STATUS_ASSIGNED, STATUS_AVAILABLE])
          · exact absurd h2 (by simp [STATUS_COMPLETE, STATUS_AVAILABLE])
          · exact absurd h2 (by simp [STATUS_FAILED, STATUS_AVAILABLE])

theorem claimed_run (r : IntegerIDRule) (i : Nat) (ops : List RuleOp)
    (hwf : ops.all wfOp = true)
    (h : (taskAt r.tasks i).status = STATUS_ASSIGNED
          ∨ (taskAt r.tasks i).status = STATUS_COMPLETE
          ∨ (taskAt r.tasks i).status = STATUS_FAILED)
    (hrel : noReleaseRun r i ops = true) :
    grantsSomewhere r i ops = false ∧ neverAvailableRun r i ops = true
      ∧ ((taskAt (run r ops).tasks i).status = STATUS_ASSIGNED
          ∨ (taskAt (run r ops).tasks i).status = STATUS_COMPLETE
          ∨ (taskAt (run r ops).tasks i).status = STATUS_FAILED) := by
  induction ops generalizing r with
  | nil => exact ⟨rfl, rfl, h⟩
  | cons op rest ih =>
    rw [List.all_cons, Bool.and_eq_true] at hwf
    rw [noReleaseRun, Bool.and_eq_true] at hrel
    have hrelh : releasesTask r op i = false := by
      have h1 := hrel.1
      revert h1
      cases releasesTask r op i <;> simp
    have hstep := status_claimed_applyOp r op i hwf.1 hrelh h
    have htail := ih (applyOp r op) hwf.2 hstep hrel.2
    refine ⟨?_, ?_, htail.2.2⟩
    · rw [grantsSomewhere]
      rw [Bool.or_eq_false_iff]
      exact ⟨not_granted_of_claimed r op i h, htail.1⟩
    · rw [neverAvailableRun, Bool.and_eq_true]
      refine ⟨?_, htail.2.1⟩
      rw [Bool.not_eq_true']
      rw [← Bool.not_eq_true]
      intro hcon
      have hmem : i ∈ availableTaskIDs (applyOp r op) := by
        simpa using hcon
      have h2 := (mem_availableTaskIDs _ _).mp hmem
      have hx := h2.2
      rcases hstep with h3 | h3 | h3 <;> rw [h3] at hx <;>
        simp [STATUS_ASSIGNED, STATUS_AVAILABLE, STATUS_COMPLETE, STATUS_FAILED] at hx

theorem resolveAll_mem_exists (len : Nat) (l : List Int) (l1 : List Nat)
    (h : resolveAll len l = some l1) :
    ∀ j ∈ l1, ∃ v ∈ l, resolveId len v = some j := by
  induction l generalizing l1 with
  | nil =>
    rw [resolveAll] at h
    injection h with h1
    rw [← h1]
    simp
  | cons v vs ih =>
    rw [resolveAll] at h
    cases hrv : resolveId len v with
    | none => rw [hrv] at h; exact absurd h (by simp)
    | some i =>
      cases hra : resolveAll len vs with
      | none => rw [hrv, hra] at h; exact absurd h (by simp)
      | some is =>
        rw [hrv, hra] at h
        injection h with h1
        rw [← h1]
        intro j hj
        rcases List.mem_cons.mp hj with h2 | h2
        · exact ⟨v, List.mem_cons_self _ _, h2 ▸ hrv⟩
        · rcases ih is hra j h2 with ⟨w, hw, hw2⟩
          exact ⟨w, List.mem_cons_of_mem _ hw, hw2⟩

theorem failed_stays_applyOp (r : IntegerIDRule) (op : RuleOp) (i : Nat)
    (hrel : releasesTask r op i = false) (htouch : touchesTask r op i = false)
    (h : (taskAt r.tasks i).status = STATUS_FAILED) :
    (taskAt (applyOp r op).tasks i).status = STATUS_FAILED := by
  have hlen : i < r.tasks.length := by
    by_contra hcon
    rw [taskAt_of_le _ _ (by omega)] at h
    simp [zeroTask, STATUS_FAILED] at h
  cases op with
  | makeRangeAvailable s e now =>
    by_cases hv : s < 0 ∨ s > (r.tasks.length : Int) ∨ e < 0 ∨ e > (r.tasks.length : Int)
    · have : applyOp r (.makeRangeAvailable s e now) = r := by
        simp only [applyOp, make_range_available, if_pos hv]
      rwa [this]
    · have hcov : ¬ (s ≤ (i : Int) ∧ (i : Int) < e) := by
        rw [releasesTask] at hrel
        intro hcon
        have hvb : (decide (s < 0) || decide (s > (r.tasks.length : Int))
            || decide (e < 0) || decide (e > (r.tasks.length : Int))) = false := by
          push_neg at hv
          simp only [Bool.or_eq_false_iff, decide_eq_false_iff_not]
          exact ⟨⟨⟨by omega, by omega⟩, by omega⟩, by omega⟩
        rw [hvb] at hrel
        simp [hcon.1, hcon.2] at hrel
      have happ : (applyOp r (.makeRangeAvailable s e now)).tasks
          = setAvailableRange s e r.tasks 0 := by
        simp only [applyOp, make_range_available, if_neg hv, update_nums]
      rw [happ, taskAt_setAvailableRange s e r.tasks 0 i hlen,
        if_neg (by simpa using hcov)]
      exact h
  | bid taskIDs costs now =>
    have hclaim := status_claimed_applyOp r (.bid taskIDs costs now) i rfl hrel
      (Or.inr (Or.inr h))
    have hsame : taskAt (applyOp r (.bid taskIDs costs now)).tasks i = taskAt r.tasks i := by
      by_cases hact : r.active = true
      case neg =>
        have hact2 : r.active = false := by revert hact; cases r.active <;> simp
        simp [applyOp, IntegerIDRule.bid, hact2]
      case pos =>
        cases hres : resolveAll r.tasks.length taskIDs with
        | none =>
          simp only [applyOp, IntegerIDRule.bid, hact, Bool.not_true, hres]
          rfl
        | some resolved =>
          by_cases hlen2 : taskIDs.length ≠ costs.length
          · simp only [applyOp, IntegerIDRule.bid, hact, Bool.not_true, hres, if_pos hlen2]
            rfl
          · have happ : (applyOp r (.bid taskIDs costs now)).tasks
                = applyGrants (now + r.timeout) r.tasks
                    (((bidTriples taskIDs resolved costs).filter
                        (fun p => (taskAt r.tasks p.2.1).status == STATUS_AVAILABLE)).map
                      (fun p => p.2)) := by
              simp only [applyOp, IntegerIDRule.bid, hact, Bool.not_true, hres, if_neg hlen2]
              rfl
            rw [happ, taskAt_applyGrants_of_notmem]
            intro p hp hpi
            have := grants_mem_status r taskIDs resolved costs hres p hp
            rw [hpi, h] at this
            simp [STATUS_FAILED, STATUS_AVAILABLE] at this
    rw [hsame]
    exact h
  | markComplete taskIDs sts now =>
    cases hres : resolveAll r.tasks.length taskIDs with
    | none =>
      have : applyOp r (.markComplete taskIDs sts now) = r := by
        simp only [applyOp, mark_complete, hres]
      rwa [this]
    | some resolved =>
      by_cases hlen2 : taskIDs.length ≠ sts.length
      · have : applyOp r (.markComplete taskIDs sts now) = r := by
          simp only [applyOp, mark_complete, hres, if_pos hlen2]
        rwa [this]
      · have happ : (applyOp r (.markComplete taskIDs sts now)).tasks
            = applyStatuses r.tasks (resolved.zip (sts.map (fun v => v % 256))) := by
          simp only [applyOp, mark_complete, hres, if_neg hlen2]
        rw [happ, taskAt_applyStatuses_of_notmem]
        · exact h
        · intro p hp hpi
          have h1 := (List.of_mem_zip hp).1
          rcases resolveAll_mem_exists _ _ _ hres p.1 h1 with ⟨v, hv, hv2⟩
          rw [touchesTask, ← Bool.not_eq_true, List.any_eq_true] at htouch
          exact htouch ⟨v, hv, by rw [hv2, hpi]; simp⟩
  | pollTimeouts t =>
    have htd : timedOut t (taskAt r.tasks i) = false := by
      rw [releasesTask] at hrel
      exact hrel
    by_cases hpos : 0 < (r.tasks.filter (timedOut t)).length
    case neg =>
      have : applyOp r (.pollTimeouts t) = r := by
        simp only [applyOp, poll_timeouts, if_neg hpos]
      rwa [this]
    case pos =>
      have happ : (applyOp r (.pollTimeouts t)).tasks
          = (r.tasks.map (fun task =>
              if timedOut t task then
                { task with status := STATUS_AVAILABLE, nRetries := (task.nRetries + 1) % 256 }
              else task)).map (fun task =>
              if retryFailed r.n_retries task then { task with status := STATUS_FAILED }
              else task) := by
        simp only [applyOp, poll_timeouts, if_pos hpos]
      rw [happ, taskAt_map _ _ i (by rw [List.length_map]; exact hlen),
        taskAt_map _ _ i hlen]
      simp only [htd, Bool.false_eq_true, if_false]
      by_cases hrf : retryFailed r.n_retries (taskAt r.tasks i) = true
      · rw [if_pos hrf]
      · rw [if_neg hrf]
        exact h

theorem failed_stays_run (r : IntegerIDRule) (i : Nat) (ops : List RuleOp)
    (h : (taskAt r.tasks i).status = STATUS_FAILED)
    (hrel : noReleaseRun r i ops = true) (htouch : noTouchRun r i ops = true) :
    alwaysFailedRun r i ops = true := by
  induction ops generalizing r with
  | nil => rfl
  | cons op rest ih =>
    rw [noReleaseRun, Bool.and_eq_true] at hrel
    rw [noTouchRun, Bool.and_eq_true] at htouch
    have hrelh : releasesTask r op i = false := by
      have h1 := hrel.1
      revert h1
      cases releasesTask r op i <;> simp
    have htouchh : touchesTask r op i = false := by
      have h1 := htouch.1
      revert h1
      cases touchesTask r op i <;> simp
    have hstep := failed_stays_applyOp r op i hrelh htouchh h
    rw [alwaysFailedRun, Bool.and_eq_true]
    exact ⟨by simp [hstep], ih (applyOp r op) hstep hrel.2 htouch.2⟩

theorem poll_timeouts_effect (r : IntegerIDRule) (t : Int) (i : Nat)
    (hlen : i < r.tasks.length)
    (hass : (taskAt r.tasks i).status = STATUS_ASSIGNED)
    (hexp : (taskAt r.tasks i).expiry < t)
    (hnr : (taskAt r.tasks i).nRetries < 255) :
    (taskAt (poll_timeouts r t).tasks i).nRetries = (taskAt r.tasks i).nRetries + 1
      ∧ (taskAt (poll_timeouts r t).tasks i).status
          = (if r.n_retries < (taskAt r.tasks i).nRetries + 1 then STATUS_FAILED
             else STATUS_AVAILABLE) := by
  have htd : timedOut t (taskAt r.tasks i) = true := by
    simp [timedOut, hass, hexp]
  have hpos : 0 < (r.tasks.filter (timedOut t)).length := by
    have hmem : taskAt r.tasks i ∈ r.tasks := taskAt_mem _ _ hlen
    have hmf : taskAt r.tasks i ∈ r.tasks.filter (timedOut t) :=
      List.mem_filter.mpr ⟨hmem, htd⟩
    exact List.length_pos_of_mem hmf
  have happ : (poll_timeouts r t).tasks
      = (r.tasks.map (fun task =>
          if timedOut t task then
            { task with status := STATUS_AVAILABLE, nRetries := (task.nRetries + 1) % 256 }
          else task)).map (fun task =>
          if retryFailed r.n_retries task then { task with status := STATUS_FAILED }
          else task) := by
    simp only [poll_timeouts, if_pos hpos]
  have hmod : ((taskAt r.tasks i).nRetries + 1) % 256 = (taskAt r.tasks i).nRetries + 1 :=
    Nat.mod_eq_of_lt (by omega)
  rw [happ, taskAt_map _ _ i (by rw [List.length_map]; exact hlen),
    taskAt_map _ _ i hlen, if_pos htd]
  by_cases hc : r.n_retries < (taskAt r.tasks i).nRetries + 1
  · simp [retryFailed, hmod, hc]
  · simp [retryFailed, hmod, hc]

/-! ## Claims -/

/-- C1: For every sequence of rule operations whose hand-ins use the
documented Complete/Failed statuses, once a task id is Assigned no later
bid grants that id to any bidder until either a `poll_timeouts` sweep at a
time past its lease expiry reverts it, or a valid `make_range_available`
call whose range covers the id re-releases it (`noReleaseRun` states that
no such event occurs, and `grantsSomewhere` that some bid grants the id). -/
theorem C1_no_double_grant (r : IntegerIDRule) (i : Nat) (ops : List RuleOp)
    (hwf : ops.all wfOp = true)
    (hassigned : (taskAt r.tasks i).status = STATUS_ASSIGNED)
    (hrel : noReleaseRun r i ops = true) :
    grantsSomewhere r i ops = false :=
  (claimed_run r i ops hwf (Or.inl hassigned) hrel).1

theorem C1_no_double_grant_witness :
    ([RuleOp.bid [0, 1] [5, 5] 1, RuleOp.pollTimeouts 2,
        RuleOp.bid [0] [7] 3].all wfOp = true)
      ∧ (taskAt (run (IntegerIDRule.init "r" "tpl" none 2 10 3600 none true 3 0)
          [RuleOp.makeRangeAvailable 0 2 0, RuleOp.bid [0] [1] 0]).tasks 0).status
          = STATUS_ASSIGNED
      ∧ noReleaseRun (run (IntegerIDRule.init "r" "tpl" none 2 10 3600 none true 3 0)
          [RuleOp.makeRangeAvailable 0 2 0, RuleOp.bid [0] [1] 0]) 0
          [RuleOp.bid [0, 1] [5, 5] 1, RuleOp.pollTimeouts 2, RuleOp.bid [0] [7] 3] = true
      ∧ grantsSomewhere (run (IntegerIDRule.init "r" "tpl" none 2 10 3600 none true 3 0)
          [RuleOp.makeRangeAvailable 0 2 0, RuleOp.bid [0] [1] 0]) 0
          [RuleOp.bid [0, 1] [5, 5] 1, RuleOp.pollTimeouts 2, RuleOp.bid [0] [7] 3] = false :=
  ⟨by decide, by decide, by decide,
    C1_no_double_grant _ 0 _ (by decide) (by decide) (by decide)⟩

/-- C2 counterexample: with `maxRetries = 0`, task 0 expires once, which
exhausts its retry budget (`nRetries = 1 > 0`) and marks it Failed — yet a
later `make_range_available` call covering it makes it Available again, so
as stated ("permanently Failed and never again appears among Available
task ids") the claim is false. -/
theorem C2_failed_reappears_counterexample :
    (taskAt (run (IntegerIDRule.init "r" "tpl" none 1 10 3600 none true 0 0)
        [RuleOp.makeRangeAvailable 0 1 0, RuleOp.bid [0] [1] 0,
         RuleOp.pollTimeouts 20]).tasks 0).status = STATUS_FAILED
      ∧ (run (IntegerIDRule.init "r" "tpl" none 1 10 3600 none true 0 0)
          [RuleOp.makeRangeAvailable 0 1 0, RuleOp.bid [0] [1] 0,
           RuleOp.pollTimeouts 20]).n_retries
        < (taskAt (run (IntegerIDRule.init "r" "tpl" none 1 10 3600 none true 0 0)
            [RuleOp.makeRangeAvailable 0 1 0, RuleOp.bid [0] [1] 0,
             RuleOp.pollTimeouts 20]).tasks 0).nRetries
      ∧ availableTaskIDs (run (IntegerIDRule.init "r" "tpl" none 1 10 3600 none true 0 0)
          [RuleOp.makeRangeAvailable 0 1 0, RuleOp.bid [0] [1] 0,
           RuleOp.pollTimeouts 20, RuleOp.makeRangeAvailable 0 1 30]) = [0] := by
  refine ⟨by decide, by decide, by decide⟩

/-- C2 amended: (a) `poll_timeouts` increments the retry count of every
Assigned task whose lease expired and reverts it to Available, or marks it
Failed when the incremented count exceeds `maxRetries`; (b) a Failed task
is never advertised as Available again in any continuation whose hand-ins
use the documented Complete/Failed statuses, unless a
`make_range_available` call covering the id explicitly re-releases it; and
(c) it moreover stays Failed if additionally no hand-in addresses it. -/
theorem C2_timeout_retry_amended :
    (∀ (r : IntegerIDRule) (t : Int) (i : Nat),
        i < r.tasks.length →
        (taskAt r.tasks i).status = STATUS_ASSIGNED →
        (taskAt r.tasks i).expiry < t →
        (taskAt r.tasks i).nRetries < 255 →
        (taskAt (poll_timeouts r t).tasks i).nRetries = (taskAt r.tasks i).nRetries + 1
          ∧ (taskAt (poll_timeouts r t).tasks i).status
              = (if r.n_retries < (taskAt r.tasks i).nRetries + 1 then STATUS_FAILED
                 else STATUS_AVAILABLE))
      ∧ (∀ (r : IntegerIDRule) (i : Nat) (ops : List RuleOp),
          ops.all wfOp = true →
          (taskAt r.tasks i).status = STATUS_FAILED →
          noReleaseRun r i ops = true →
          neverAvailableRun r i ops = true)
      ∧ (∀ (r : IntegerIDRule) (i : Nat) (ops : List RuleOp),
          (taskAt r.tasks i).status = STATUS_FAILED →
          noReleaseRun r i ops = true →
          noTouchRun r i ops = true →
          alwaysFailedRun r i ops = true) :=
  ⟨fun r t i h1 h2 h3 h4 => poll_timeouts_effect r t i h1 h2 h3 h4,
   fun r i ops hwf h hrel => (claimed_run r i ops hwf (Or.inr (Or.inr h)) hrel).2.1,
   fun r i ops h hrel htouch => failed_stays_run r i ops h hrel htouch⟩

theorem C2_timeout_retry_amended_witness :
    ((taskAt (poll_timeouts (run (IntegerIDRule.init "r" "tpl" none 1 10 3600 none true 0 0)
          [RuleOp.makeRangeAvailable 0 1 0, RuleOp.bid [0] [1] 0]) 20).tasks 0).nRetries = 1
        ∧ (taskAt (poll_timeouts (run (IntegerIDRule.init "r" "tpl" none 1 10 3600 none true 0 0)
          [RuleOp.makeRangeAvailable 0 1 0, RuleOp.bid [0] [1] 0]) 20).tasks 0).status
          = STATUS_FAILED)
      ∧ neverAvailableRun (run (IntegerIDRule.init "r" "tpl" none 1 10 3600 none true 0 0)
          [RuleOp.makeRangeAvailable 0 1 0, RuleOp.bid [0] [1] 0, RuleOp.pollTimeouts 20]) 0
          [RuleOp.bid [0] [2] 30, RuleOp.pollTimeouts 50, RuleOp.markComplete [0] [3] 60]
          = true
      ∧ alwaysFailedRun (run (IntegerIDRule.init "r" "tpl" none 1 10 3600 none true 0 0)
          [RuleOp.makeRangeAvailable 0 1 0, RuleOp.bid [0] [1] 0, RuleOp.pollTimeouts 20]) 0
          [RuleOp.bid [0] [2] 30, RuleOp.pollTimeouts 50] = true := by
  refine ⟨?_, ?_, ?_⟩
  · have h := C2_timeout_retry_amended.1
      (run (IntegerIDRule.init "r" "tpl" none 1 10 3600 none true 0 0)
        [RuleOp.makeRangeAvailable 0 1 0, RuleOp.bid [0] [1] 0]) 20 0
      (by decide) (by decide) (by decide) (by decide)
    exact ⟨h.1, by rw [h.2]; decide⟩
  · exact C2_timeout_retry_amended.2.1
      (run (IntegerIDRule.init "r" "tpl" none 1 10 3600 none true 0 0)
        [RuleOp.makeRangeAvailable 0 1 0, RuleOp.bid [0] [1] 0, RuleOp.pollTimeouts 20]) 0
      _ (by decide) (by decide) (by decide)
  · exact C2_timeout_retry_amended.2.2
      (run (IntegerIDRule.init "r" "tpl" none 1 10 3600 none true 0 0)
        [RuleOp.makeRangeAvailable 0 1 0, RuleOp.bid [0] [1] 0, RuleOp.pollTimeouts 20]) 0
      _ (by decide) (by decide) (by decide)

/-- C3 counterexample: a `mark_complete` hand-in for a task that is
Available (never Assigned) decrements `nAssigned` to -1 while the task
array contains no Assigned task, so the aggregate counters are not
recomputable from the task array in every reachable state. -/
theorem C3_counter_drift_counterexample :
    (run (IntegerIDRule.init "r" "tpl" none 1 10 3600 none true 3 0)
        [RuleOp.makeRangeAvailable 0 1 0, RuleOp.markComplete [0] [3] 0]).nAssigned
      ≠ countStatus (run (IntegerIDRule.init "r" "tpl" none 1 10 3600 none true 3 0)
        [RuleOp.makeRangeAvailable 0 1 0, RuleOp.markComplete [0] [3] 0]).tasks
        STATUS_ASSIGNED := by
  decide

/-- C3 amended: in every state reached from a fresh rule by a sequence of
benign operations — valid calls that keep to the documented contracts,
use duplicate-free id batches, hand in only currently-Assigned tasks,
release only tasks that are not Complete/Failed, and never let a task
exceed its retry budget (`wfStrong`) — `nAvailable`, `nAssigned`,
`nCompleted` and `nFailed` equal the number of tasks with the
corresponding status in the task array. -/
theorem C3_counters_recomputable_amended (ruleID task_template : String)
    (inputs_by_task : Option (List (Nat × String))) (max_task_ID : Nat)
    (task_timeout rule_timeout : Int) (on_completion : Option OnCompletion)
    (datasource_complete : Bool) (n_retries : Nat) (now : Int) (ops : List RuleOp)
    (hwf : wfRun (IntegerIDRule.init ruleID task_template inputs_by_task max_task_ID
        task_timeout rule_timeout on_completion datasource_complete n_retries now)
        ops = true) :
    countersOK (run (IntegerIDRule.init ruleID task_template inputs_by_task max_task_ID
        task_timeout rule_timeout on_completion datasource_complete n_retries now) ops) :=
  (inv_run _ ops hwf
    (inv_init ruleID task_template inputs_by_task max_task_ID task_timeout rule_timeout
      on_completion datasource_complete n_retries now).1
    (inv_init ruleID task_template inputs_by_task max_task_ID task_timeout rule_timeout
      on_completion datasource_complete n_retries now).2).1

theorem C3_counters_recomputable_amended_witness :
    (wfRun (IntegerIDRule.init "r" "tpl" none 2 10 3600 none true 3 0)
        [RuleOp.makeRangeAvailable 0 2 0, RuleOp.bid [0] [1] 0,
         RuleOp.pollTimeouts 20, RuleOp.bid [0] [2] 20,
         RuleOp.markComplete [0] [3] 25] = true)
      ∧ countersOK (run (IntegerIDRule.init "r" "tpl" none 2 10 3600 none true 3 0)
          [RuleOp.makeRangeAvailable 0 2 0, RuleOp.bid [0] [1] 0,
           RuleOp.pollTimeouts 20, RuleOp.bid [0] [2] 20,
           RuleOp.markComplete [0] [3] 25]) :=
  ⟨by decide,
    C3_counters_recomputable_amended "r" "tpl" none 2 10 3600 none true 3 0 _ (by decide)⟩

theorem getD_map_toNat (l : List Int) (k : Nat) (h : k < l.length) :
    (l.map Int.toNat).getD k 0 = (l.getD k 0).toNat := by
  induction l generalizing k with
  | nil => simp at h
  | cons v vs ih =>
    cases k with
    | zero => rfl
    | succ n => exact ih n (by simpa using h)

theorem bidTriples_getD_mem (vs : List Int) (is : List Nat) (cs : List Int) (k : Nat)
    (h1 : k < vs.length) (h2 : vs.length = is.length) (h3 : vs.length = cs.length) :
    (vs.getD k 0, is.getD k 0, cs.getD k 0) ∈ bidTriples vs is cs := by
  induction vs generalizing is cs k with
  | nil => simp at h1
  | cons v vs ih =>
    cases is with
    | nil => simp at h2
    | cons i is =>
      cases cs with
      | nil => simp at h3
      | cons c cs =>
        cases k with
        | zero => exact List.mem_cons_self _ _
        | succ n =>
          exact List.mem_cons_of_mem _
            (ih is cs n (by simpa using h1) (by simpa using h2) (by simpa using h3))

theorem getD_mem_int (l : List Int) (k : Nat) (h : k < l.length) : l.getD k 0 ∈ l := by
  induction l generalizing k with
  | nil => simp at h
  | cons v vs ih =>
    cases k with
    | zero => exact List.mem_cons_self _ _
    | succ n => exact List.mem_cons_of_mem _ (ih n (by simpa using h))

theorem granted_filter_eq (ts : List TaskInfo) (vs : List Int) (cs : List Int)
    (h : vs.length = cs.length) :
    (((bidTriples vs (vs.map Int.toNat) cs).filter
        (fun p => (taskAt ts p.2.1).status == STATUS_AVAILABLE)).map (fun p => p.1))
      = vs.filter (fun v => (taskAt ts v.toNat).status == STATUS_AVAILABLE) := by
  induction vs generalizing cs with
  | nil => rfl
  | cons v vs ih =>
    cases cs with
    | nil => simp at h
    | cons c cs =>
      rw [List.map_cons, show bidTriples (v :: vs) (v.toNat :: vs.map Int.toNat) (c :: cs)
          = (v, v.toNat, c) :: bidTriples vs (vs.map Int.toNat) cs from rfl,
        List.filter_cons, List.filter_cons]
      by_cases hav : ((taskAt ts v.toNat).status == STATUS_AVAILABLE) = true
      · simp only [hav, if_pos]
        rw [List.map_cons, ih cs (by simpa using h)]
      · have hav2 : ((taskAt ts v.toNat).status == STATUS_AVAILABLE) = false := by
          revert hav
          cases (taskAt ts v.toNat).status == STATUS_AVAILABLE <;> simp
        simp only [hav2]
        simp only [Bool.false_eq_true, if_false]
        exact ih cs (by simpa using h)

/-- C4: on an active rule, a bid with well-formed arguments (distinct
in-range ids, one cost per id) grants exactly the requested ids that are
currently Available: each granted row becomes Assigned with the bidder's
cost and lease expiry `now + taskTimeout`; requested ids that are not
Available are dropped from the result with their rows unchanged, and
unrequested rows are untouched; on an inactive rule nothing is granted and
the state is unchanged. -/
theorem C4_bid_grants (r : IntegerIDRule) (taskIDs : List Int) (costs : List Int)
    (now : Int)
    (hids : ∀ v ∈ taskIDs, 0 ≤ v ∧ v < (r.tasks.length : Int))
    (hnodup : taskIDs.Nodup) (hlen : taskIDs.length = costs.length) :
    (r.active = false → r.bid taskIDs costs now = (r, []))
      ∧ (r.active = true →
          (r.bid taskIDs costs now).2
              = taskIDs.filter (fun v => (taskAt r.tasks v.toNat).status == STATUS_AVAILABLE)
            ∧ (∀ k, k < taskIDs.length →
                ((taskAt r.tasks (taskIDs.getD k 0).toNat).status = STATUS_AVAILABLE →
                  taskAt (r.bid taskIDs costs now).1.tasks (taskIDs.getD k 0).toNat
                    = { taskAt r.tasks (taskIDs.getD k 0).toNat with status := STATUS_ASSIGNED, cost := costs.getD k 0, expiry := now + r.timeout })
                ∧ ((taskAt r.tasks (taskIDs.getD k 0).toNat).status ≠ STATUS_AVAILABLE →
                  taskAt (r.bid taskIDs costs now).1.tasks (taskIDs.getD k 0).toNat
                    = taskAt r.tasks (taskIDs.getD k 0).toNat))
            ∧ (∀ j, (∀ v ∈ taskIDs, v.toNat ≠ j) →
                taskAt (r.bid taskIDs costs now).1.tasks j = taskAt r.tasks j)) := by
  constructor
  · intro h
    simp [IntegerIDRule.bid, h]
  · intro hact
    have hres : resolveAll r.tasks.length taskIDs = some (taskIDs.map Int.toNat) :=
      resolveAll_of_nonneg _ _ hids
    have hlen2 : ¬ (taskIDs.length ≠ costs.length) := by simp [hlen]
    have h2nd : (r.bid taskIDs costs now).2
        = ((bidTriples taskIDs (taskIDs.map Int.toNat) costs).filter
            (fun p => (taskAt r.tasks p.2.1).status == STATUS_AVAILABLE)).map
          (fun p => p.1) := by
      simp only [IntegerIDRule.bid, hact, Bool.not_true, hres, if_neg hlen2]
      rfl
    have htasks : (r.bid taskIDs costs now).1.tasks
        = applyGrants (now + r.timeout) r.tasks
            (((bidTriples taskIDs (taskIDs.map Int.toNat) costs).filter
                (fun p => (taskAt r.tasks p.2.1).status == STATUS_AVAILABLE)).map
              (fun p => p.2)) := by
      simp only [IntegerIDRule.bid, hact, Bool.not_true, hres, if_neg hlen2]
      rfl
    have hndf : ((((bidTriples taskIDs (taskIDs.map Int.toNat) costs).filter
        (fun p => (taskAt r.tasks p.2.1).status == STATUS_AVAILABLE)).map
          (fun p => p.2)).map Prod.fst).Nodup :=
      grants_fst_nodup taskIDs (taskIDs.map Int.toNat) costs _
        (nodup_toNat_map taskIDs (fun v hv => (hids v hv).1) hnodup)
    refine ⟨by rw [h2nd, granted_filter_eq r.tasks taskIDs costs hlen], ?_, ?_⟩
    · intro k hk
      have hkv := hids (taskIDs.getD k 0) (getD_mem_int taskIDs k hk)
      constructor
      · intro hav
        have hmem : (taskIDs.getD k 0, (taskIDs.getD k 0).toNat, costs.getD k 0)
            ∈ bidTriples taskIDs (taskIDs.map Int.toNat) costs := by
          have := bidTriples_getD_mem taskIDs (taskIDs.map Int.toNat) costs k hk
            (by rw [List.length_map]) hlen
          rwa [getD_map_toNat taskIDs k hk] at this
        have hmemf : (taskIDs.getD k 0, (taskIDs.getD k 0).toNat, costs.getD k 0)
            ∈ (bidTriples taskIDs (taskIDs.map Int.toNat) costs).filter
              (fun p => (taskAt r.tasks p.2.1).status == STATUS_AVAILABLE) :=
          List.mem_filter.mpr ⟨hmem, by simpa using hav⟩
        have hmemg : ((taskIDs.getD k 0).toNat, costs.getD k 0)
            ∈ ((bidTriples taskIDs (taskIDs.map Int.toNat) costs).filter
              (fun p => (taskAt r.tasks p.2.1).status == STATUS_AVAILABLE)).map
              (fun p => p.2) := List.mem_map_of_mem _ hmemf
        rw [htasks, taskAt_applyGrants_of_mem _ _ _ _ _ hndf hmemg (by omega)]
      · intro hnav
        rw [htasks, taskAt_applyGrants_of_notmem]
        intro p hp hpeq
        have := grants_mem_status r taskIDs (taskIDs.map Int.toNat) costs hres p hp
        rw [hpeq] at this
        exact hnav this.2
    · intro j hj
      rw [htasks, taskAt_applyGrants_of_notmem]
      intro p hp hpeq
      rcases List.mem_map.mp hp with ⟨q, hq, hq2⟩
      have h1 := (List.mem_filter.mp hq).1
      have h2 : q.2.1 ∈ taskIDs.map Int.toNat := bidTriples_snd_mem _ _ _ q h1
      rcases List.mem_map.mp h2 with ⟨w, hw, hw2⟩
      exact hj w hw (by rw [hw2]; rw [← hq2] at hpeq; exact hpeq)

theorem C4_bid_grants_witness :
    (∀ v ∈ ([0, 1] : List Int), 0 ≤ v
        ∧ v < ((run (IntegerIDRule.init "r" "tpl" none 3 10 3600 none true 3 0)
            [RuleOp.makeRangeAvailable 0 2 0, RuleOp.bid [1] [7] 0]).tasks.length : Int))
      ∧ ((run (IntegerIDRule.init "r" "tpl" none 3 10 3600 none true 3 0)
            [RuleOp.makeRangeAvailable 0 2 0, RuleOp.bid [1] [7] 0]).bid
          [0, 1] [4, 5] 2).2 = [0] := by
  constructor
  · decide
  · have h := (C4_bid_grants (run (IntegerIDRule.init "r" "tpl" none 3 10 3600 none true 3 0)
        [RuleOp.makeRangeAvailable 0 2 0, RuleOp.bid [1] [7] 0]) [0, 1] [4, 5] 2
        (by decide) (by decide) (by decide)).2 (by decide)
    rw [h.1]
    decide

theorem handin_append_ok (now : Int) (rules : List (String × IntegerIDRule))
    (pre l : List HandinEntry) (hpre : (handin now rules pre).2 = HandinOutcome.ok) :
    handin now rules (pre ++ l) = handin now (handin now rules pre).1 l := by
  induction pre generalizing rules with
  | nil => rfl
  | cons e rest ih =>
    rw [List.cons_append]
    cases hlook : rules.lookup e.ruleID with
    | none =>
      rw [handin, hlook] at hpre
      simp at hpre
    | some r =>
      cases hmc : mark_complete r e.taskIDs e.status now with
      | mk r1 ok =>
        cases ok with
        | false =>
          rw [handin, hlook] at hpre
          simp only [hmc] at hpre
          simp at hpre
        | true =>
          rw [handin, hlook] at hpre
          simp only [hmc] at hpre
          rw [handin, hlook]
          simp only [hmc]
          conv_rhs => rw [handin, hlook]
          simp only [hmc]
          exact ih _ hpre

/-- C5 counterexample: a hand-in batch whose first entry addresses the
unknown rule "B" returns the per-batch error response, but the following
entry for the known rule "A" is NOT applied: the registry is returned
unchanged and rule A's task 0 is still Assigned rather than Complete. -/
theorem C5_handin_abort_counterexample :
    handin 1 [("A", run (IntegerIDRule.init "A" "tpl" none 1 10 3600 none true 3 0)
        [RuleOp.makeRangeAvailable 0 1 0, RuleOp.bid [0] [1] 0])]
      [⟨"B", [], []⟩, ⟨"A", [0], [3]⟩]
      = ([("A", run (IntegerIDRule.init "A" "tpl" none 1 10 3600 none true 3 0)
          [RuleOp.makeRangeAvailable 0 1 0, RuleOp.bid [0] [1] 0])],
         HandinOutcome.keyError "B")
      ∧ (taskAt (run (IntegerIDRule.init "A" "tpl" none 1 10 3600 none true 3 0)
          [RuleOp.makeRangeAvailable 0 1 0, RuleOp.bid [0] [1] 0]).tasks 0).status
          = STATUS_ASSIGNED := by
  exact ⟨rfl, by decide⟩

/-- C5 amended: an unknown ruleID in a hand-in batch is a soft failure in
the sense that the error is reported in the response rather than raised,
and all entries before the first failing entry are applied — but the
batch is aborted at the failing entry: entries after it, including valid
ones, are not applied (the registry is left as it was after the prefix). -/
theorem C5_handin_abort_amended (now : Int) (rules : List (String × IntegerIDRule))
    (pre : List HandinEntry) (bad : HandinEntry) (post : List HandinEntry)
    (hpre : (handin now rules pre).2 = HandinOutcome.ok)
    (hbad : ((handin now rules pre).1).lookup bad.ruleID = none) :
    handin now rules (pre ++ bad :: post)
      = ((handin now rules pre).1, HandinOutcome.keyError bad.ruleID) := by
  rw [handin_append_ok now rules pre (bad :: post) hpre, handin, hbad]

theorem C5_handin_abort_amended_witness :
    ((handin 2 [("A", run (IntegerIDRule.init "A" "tpl" none 2 10 3600 none true 3 0)
        [RuleOp.makeRangeAvailable 0 2 0, RuleOp.bid [0] [1] 0])]
        [⟨"A", [0], [3]⟩]).2 = HandinOutcome.ok)
      ∧ handin 2 [("A", run (IntegerIDRule.init "A" "tpl" none 2 10 3600 none true 3 0)
          [RuleOp.makeRangeAvailable 0 2 0, RuleOp.bid [0] [1] 0])]
          ([⟨"A", [0], [3]⟩] ++ ⟨"B", [], []⟩ :: [⟨"A", [1], [3]⟩])
          = ((handin 2 [("A", run (IntegerIDRule.init "A" "tpl" none 2 10 3600 none true 3 0)
              [RuleOp.makeRangeAvailable 0 2 0, RuleOp.bid [0] [1] 0])]
              [⟨"A", [0], [3]⟩]).1, HandinOutcome.keyError "B") :=
  ⟨by decide,
    C5_handin_abort_amended 2 _ [⟨"A", [0], [3]⟩] ⟨"B", [], []⟩ [⟨"A", [1], [3]⟩]
      (by decide) (by rfl)⟩

/-- C6 counterexample: on a 10-task rule, `make_range_available(5, 2)` has
`0 ≤ start ≤ maxTaskID` and `0 ≤ end ≤ maxTaskID` but `start > end`, and
is NOT rejected — the source never compares start with end; the call
succeeds as a no-op (empty slice), leaving every task unchanged. -/
theorem C6_reversed_range_counterexample :
    ((make_range_available (IntegerIDRule.init "r" "tpl" none 10 10 3600 none true 3 0)
        5 2 0).2 = true)
      ∧ (0 : Int) ≤ 5 ∧ (5 : Int) ≤ 10 ∧ (0 : Int) ≤ 2 ∧ (2 : Int) ≤ 10
      ∧ ¬ ((5 : Int) ≤ 2)
      ∧ (make_range_available (IntegerIDRule.init "r" "tpl" none 10 10 3600 none true 3 0)
          5 2 0).1.tasks
        = (IntegerIDRule.init "r" "tpl" none 10 10 3600 none true 3 0).tasks := by
  refine ⟨by decide, by decide, by decide, by decide, by decide, by decide, by decide⟩

/-- C6 amended: `make_range_available(start, end)` fails (RuntimeError)
iff `start < 0 ∨ start > len ∨ end < 0 ∨ end > len` where `len` is the
task-array length — there is no `start ≤ end` check, so a reversed
in-range call succeeds with an empty range; on success every id in
`[start, end)` becomes Available and every other row is unchanged. -/
theorem C6_range_check_amended (r : IntegerIDRule) (s e : Int) (now : Int) :
    ((make_range_available r s e now).2 = false
        ↔ (s < 0 ∨ (r.tasks.length : Int) < s ∨ e < 0 ∨ (r.tasks.length : Int) < e))
      ∧ ((make_range_available r s e now).2 = true →
          ∀ i, i < r.tasks.length →
            ((s ≤ (i : Int) ∧ (i : Int) < e →
                (taskAt (make_range_available r s e now).1.tasks i).status
                  = STATUS_AVAILABLE)
              ∧ (¬ (s ≤ (i : Int) ∧ (i : Int) < e) →
                taskAt (make_range_available r s e now).1.tasks i = taskAt r.tasks i))) := by
  by_cases hv : s < 0 ∨ s > (r.tasks.length : Int) ∨ e < 0 ∨ e > (r.tasks.length : Int)
  · have hmk : make_range_available r s e now = (r, false) := by
      simp only [make_range_available, if_pos hv]
    constructor
    · rw [hmk]
      exact iff_of_true rfl hv
    · rw [hmk]
      intro h
      exact absurd h (by simp)
  · have htasks : (make_range_available r s e now).1.tasks
        = setAvailableRange s e r.tasks 0 := by
      simp only [make_range_available, if_neg hv, update_nums]
    have hflag : (make_range_available r s e now).2 = true := by
      simp only [make_range_available, if_neg hv]
    constructor
    · rw [hflag]
      exact iff_of_false (by simp) hv
    · intro _ i hi
      rw [htasks, taskAt_setAvailableRange s e r.tasks 0 i hi]
      constructor
      · intro hcov
        rw [if_pos (by simpa using hcov)]
      · intro hcov
        rw [if_neg (by simpa using hcov)]

theorem C6_range_check_amended_witness :
    ((make_range_available (IntegerIDRule.init "r" "tpl" none 3 10 3600 none true 3 0)
        1 3 0).2 = true)
      ∧ (taskAt (make_range_available (IntegerIDRule.init "r" "tpl" none 3 10 3600
          none true 3 0) 1 3 0).1.tasks 1).status = STATUS_AVAILABLE
      ∧ taskAt (make_range_available (IntegerIDRule.init "r" "tpl" none 3 10 3600
          none true 3 0) 1 3 0).1.tasks 0
        = taskAt (IntegerIDRule.init "r" "tpl" none 3 10 3600 none true 3 0).tasks 0 :=
  ⟨by decide,
    ((C6_range_check_amended (IntegerIDRule.init "r" "tpl" none 3 10 3600 none true 3 0)
      1 3 0).2 (by decide) 1 (by decide)).1 (by decide),
    ((C6_range_check_amended (IntegerIDRule.init "r" "tpl" none 3 10 3600 none true 3 0)
      1 3 0).2 (by decide) 0 (by decide)).2 (by decide)⟩

/-- C7 counterexample: the state reached by the operation sequence below
(task 0 exhausts its retries and is Failed; a later sweep then
double-counts it, leaving the stale counter `nAvailable = -1`; task 1 is
re-leased) is rejected by `mark_datasource_complete(0)` — but the call is
not free of side effects: its `_update_nums` refresh runs before the
check, so `nAvailable` changes from -1 to 0 even though the call raises. -/
theorem C7_reject_mutates_counterexample :
    ((mark_datasource_complete (run (IntegerIDRule.init "r" "tpl" none 2 10 3600 none true 3 0)
        [RuleOp.makeRangeAvailable 0 2 0,
         RuleOp.bid [0] [1] 0, RuleOp.pollTimeouts 20,
         RuleOp.bid [0] [1] 20, RuleOp.pollTimeouts 40,
         RuleOp.bid [0] [1] 40, RuleOp.pollTimeouts 60,
         RuleOp.bid [0] [1] 60, RuleOp.pollTimeouts 80,
         RuleOp.bid [1] [1] 80, RuleOp.pollTimeouts 100,
         RuleOp.bid [1] [1] 100]) 0).2 = false)
      ∧ (run (IntegerIDRule.init "r" "tpl" none 2 10 3600 none true 3 0)
          [RuleOp.makeRangeAvailable 0 2 0,
           RuleOp.bid [0] [1] 0, RuleOp.pollTimeouts 20,
           RuleOp.bid [0] [1] 20, RuleOp.pollTimeouts 40,
           RuleOp.bid [0] [1] 40, RuleOp.pollTimeouts 60,
           RuleOp.bid [0] [1] 60, RuleOp.pollTimeouts 80,
           RuleOp.bid [1] [1] 80, RuleOp.pollTimeouts 100,
           RuleOp.bid [1] [1] 100]).nAvailable = -1
      ∧ (mark_datasource_complete (run (IntegerIDRule.init "r" "tpl" none 2 10 3600 none true 3 0)
          [RuleOp.makeRangeAvailable 0 2 0,
           RuleOp.bid [0] [1] 0, RuleOp.pollTimeouts 20,
           RuleOp.bid [0] [1] 20, RuleOp.pollTimeouts 40,
           RuleOp.bid [0] [1] 40, RuleOp.pollTimeouts 60,
           RuleOp.bid [0] [1] 60, RuleOp.pollTimeouts 80,
           RuleOp.bid [1] [1] 80, RuleOp.pollTimeouts 100,
           RuleOp.bid [1] [1] 100]) 0).1.nAvailable = 0 := by
  refine ⟨by decide, by decide, by decide⟩

/-- C7 amended: when the recomputed assigned count exceeds `n_max`, the
call fails and leaves the task array, `_n_max`, `_datasource_complete`,
`nCompleted`, `nFailed`, `nTotal` and `avCost` unchanged — but it does
refresh `nAvailable` and `nAssigned` from the task array (they change
exactly when they were stale); otherwise the call succeeds, the array is
extended as needed, the bound becomes `n_max` and `datasourceComplete`
becomes true. -/
theorem C7_mark_datasource_amended (r : IntegerIDRule) (n_max : Int) :
    (n_max < countStatus r.tasks STATUS_ASSIGNED →
        (mark_datasource_complete r n_max).2 = false
          ∧ (mark_datasource_complete r n_max).1.tasks = r.tasks
          ∧ (mark_datasource_complete r n_max).1.n_max = r.n_max
          ∧ (mark_datasource_complete r n_max).1.datasource_complete = r.datasource_complete
          ∧ (mark_datasource_complete r n_max).1.nCompleted = r.nCompleted
          ∧ (mark_datasource_complete r n_max).1.nFailed = r.nFailed
          ∧ (mark_datasource_complete r n_max).1.nTotal = r.nTotal
          ∧ (mark_datasource_complete r n_max).1.avCost = r.avCost
          ∧ (mark_datasource_complete r n_max).1.nAvailable
              = countStatus r.tasks STATUS_AVAILABLE
          ∧ (mark_datasource_complete r n_max).1.nAssigned
              = countStatus r.tasks STATUS_ASSIGNED)
      ∧ (countStatus r.tasks STATUS_ASSIGNED ≤ n_max →
          (mark_datasource_complete r n_max).2 = true
            ∧ (mark_datasource_complete r n_max).1.n_max = n_max
            ∧ (mark_datasource_complete r n_max).1.datasource_complete = true
            ∧ ((r.tasks.length : Int) < n_max →
                ((mark_datasource_complete r n_max).1.tasks.length : Int) = n_max)
            ∧ (n_max ≤ (r.tasks.length : Int) →
                (mark_datasource_complete r n_max).1.tasks = r.tasks)) := by
  constructor
  · intro hc
    have hmk : mark_datasource_complete r n_max = (update_nums r, false) := by
      simp only [mark_datasource_complete, update_nums]
      rw [if_pos hc]
    rw [hmk]
    exact ⟨rfl, rfl, rfl, rfl, rfl, rfl, rfl, rfl, rfl, rfl⟩
  · intro hc
    have hnot : ¬ (n_max < (update_nums r).nAssigned) := by
      show ¬ (n_max < countStatus r.tasks STATUS_ASSIGNED)
      omega
    by_cases hext : ((update_nums r).tasks.length : Int) < n_max
    · have hmk : mark_datasource_complete r n_max
          = ({ update_nums r with
                tasks := (update_nums r).tasks
                  ++ List.replicate (n_max - ((update_nums r).tasks.length : Int)).toNat
                    zeroTask
                n_max := n_max
                datasource_complete := true }, true) := by
        simp only [mark_datasource_complete]
        rw [if_neg hnot, if_pos hext]
      rw [hmk]
      refine ⟨rfl, rfl, rfl, ?_, ?_⟩
      · intro _
        show (((r.tasks ++ List.replicate (n_max - (r.tasks.length : Int)).toNat
            zeroTask).length : Nat) : Int) = n_max
        rw [List.length_append, List.length_replicate]
        have h1 : ((n_max - (r.tasks.length : Int)).toNat : Int)
            = n_max - (r.tasks.length : Int) := Int.toNat_of_nonneg (by
          have : ((update_nums r).tasks.length : Int) = (r.tasks.length : Int) := rfl
          omega)
        push_cast
        omega
      · intro hle
        have : ((update_nums r).tasks.length : Int) = (r.tasks.length : Int) := rfl
        omega
    · have hmk : mark_datasource_complete r n_max
        = ({ update_nums r with n_max := n_max, datasource_complete := true }, true) := by
        simp only [mark_datasource_complete]
        rw [if_neg hnot, if_neg hext]
      rw [hmk]
      exact ⟨rfl, rfl, rfl, fun h => absurd h hext, fun _ => rfl⟩

theorem C7_mark_datasource_amended_witness :
    (0 : Int) < countStatus (run (IntegerIDRule.init "r" "tpl" none 1 10 3600 none true 3 0)
        [RuleOp.makeRangeAvailable 0 1 0, RuleOp.bid [0] [1] 0]).tasks STATUS_ASSIGNED
      ∧ (mark_datasource_complete (run (IntegerIDRule.init "r" "tpl" none 1 10 3600
          none true 3 0) [RuleOp.makeRangeAvailable 0 1 0, RuleOp.bid [0] [1] 0]) 0).2
          = false
      ∧ (mark_datasource_complete (run (IntegerIDRule.init "r" "tpl" none 1 10 3600
          none true 3 0) [RuleOp.makeRangeAvailable 0 1 0, RuleOp.bid [0] [1] 0]) 0).1.tasks
        = (run (IntegerIDRule.init "r" "tpl" none 1 10 3600 none true 3 0)
            [RuleOp.makeRangeAvailable 0 1 0, RuleOp.bid [0] [1] 0]).tasks := by
  refine ⟨by decide, ?_, ?_⟩
  · exact ((C7_mark_datasource_amended (run (IntegerIDRule.init "r" "tpl" none 1 10 3600
      none true 3 0) [RuleOp.makeRangeAvailable 0 1 0, RuleOp.bid [0] [1] 0]) 0).1
      (by decide)).1
  · exact ((C7_mark_datasource_amended (run (IntegerIDRule.init "r" "tpl" none 1 10 3600
      none true 3 0) [RuleOp.makeRangeAvailable 0 1 0, RuleOp.bid [0] [1] 0]) 0).1
      (by decide)).2.1

theorem advertCount_cons_none (r : IntegerIDRule) (l : List IntegerIDRule)
    (h : advert r = none) : advertCount (r :: l) = advertCount l := by
  simp [advertCount, List.filterMap_cons, h]

theorem advertCount_cons_some (r : IntegerIDRule) (a : Advert) (l : List IntegerIDRule)
    (h : advert r = some a) :
    advertCount (r :: l) = a.availableTaskIDs.length + advertCount l := by
  simp [advertCount, List.filterMap_cons, h]

theorem advertLoop_spec (rules : List IntegerIDRule) (n : Nat) :
    ∃ k, k ≤ rules.length
      ∧ advertLoop rules n = (rules.take k).filterMap advert
      ∧ (k = rules.length ∨ MAX_ADVERTISEMENTS ≤ n + advertCount (rules.take k))
      ∧ ∀ j, j < k → n + advertCount (rules.take j) < MAX_ADVERTISEMENTS := by
  induction rules generalizing n with
  | nil => exact ⟨0, Nat.le_refl 0, rfl, Or.inl rfl, fun j hj => absurd hj (by omega)⟩
  | cons r rest ih =>
    by_cases hcap : n < MAX_ADVERTISEMENTS
    · cases hadv : advert r with
      | none =>
        rcases ih n with ⟨k, hk1, hk2, hk3, hk4⟩
        refine ⟨k + 1, by simpa using Nat.succ_le_succ hk1, ?_, ?_, ?_⟩
        · rw [advertLoop, if_pos hcap]
          simp only [hadv]
          rw [hk2, List.take_succ_cons]
          simp [List.filterMap_cons, hadv]
        · rcases hk3 with h | h
          · exact Or.inl (by simp [h])
          · refine Or.inr ?_
            rw [List.take_succ_cons, advertCount_cons_none r _ hadv]
            omega
        · intro j hj
          cases j with
          | zero => simpa [advertCount] using hcap
          | succ m =>
            have := hk4 m (by omega)
            rw [List.take_succ_cons, advertCount_cons_none r _ hadv]
            omega
      | some a =>
        rcases ih (n + a.availableTaskIDs.length) with ⟨k, hk1, hk2, hk3, hk4⟩
        refine ⟨k + 1, by simpa using Nat.succ_le_succ hk1, ?_, ?_, ?_⟩
        · rw [advertLoop, if_pos hcap]
          simp only [hadv]
          rw [hk2, List.take_succ_cons]
          simp [List.filterMap_cons, hadv]
        · rcases hk3 with h | h
          · exact Or.inl (by simp [h])
          · refine Or.inr ?_
            rw [List.take_succ_cons, advertCount_cons_some r a _ hadv]
            omega
        · intro j hj
          cases j with
          | zero => simpa [advertCount] using hcap
          | succ m =>
            have := hk4 m (by omega)
            rw [List.take_succ_cons, advertCount_cons_some r a _ hadv]
            omega
    · refine ⟨0, Nat.zero_le _, ?_, Or.inr (by simpa [advertCount] using hcap),
        fun j hj => absurd hj (by omega)⟩
      rw [advertLoop, if_neg hcap]
      rfl

/-- C9: the advertisement list rebuilt by `task_advertisements` visits
rules in registration order: it equals the non-empty advertisements of
some prefix of the rule list, the prefix either covers all rules or the
accumulated advertised-task count has reached `MAX_ADVERTISEMENTS` at its
end, and before every visited rule the accumulated count was still below
the cap — so earlier-registered rules are advertised in full before any
later rule is considered. -/
theorem C9_task_advertisements_spec (rules : List IntegerIDRule) :
    ∃ k, k ≤ rules.length
      ∧ task_advertisements rules = (rules.take k).filterMap advert
      ∧ (k = rules.length ∨ MAX_ADVERTISEMENTS ≤ advertCount (rules.take k))
      ∧ ∀ j, j < k → advertCount (rules.take j) < MAX_ADVERTISEMENTS := by
  rcases advertLoop_spec rules 0 with ⟨k, h1, h2, h3, h4⟩
  refine ⟨k, h1, h2, ?_, fun j hj => by simpa using h4 j hj⟩
  rcases h3 with h | h
  · exact Or.inl h
  · exact Or.inr (by simpa using h)

/-- C8: when the sweep processes a rule that is finished (after its
timeout poll) and carries an `on_completion` descriptor, the registry
loses that rule and gains exactly one new rule, built from the
descriptor's template, task bound (default 1) and rule timeout (default
3600), with its whole id range `[0, max_tasks)` immediately Available. -/
theorem C8_chained_rule (rules : List (String × IntegerIDRule)) (qn freshID : String)
    (now : Int) (n_retries : Nat) (r : IntegerIDRule) (f : OnCompletion)
    (hlook : rules.lookup qn = some r)
    (hfin : finished (poll_timeouts r now) = true)
    (hoc : (poll_timeouts r now).on_completion = some f) :
    ∃ chained,
      poll_rule_step rules qn freshID now n_retries
          = ((rules.map (fun p => if p.1 == qn then (p.1, poll_timeouts r now) else p)).eraseP
              (fun p => p.1 == qn)) ++ [(freshID, chained)]
        ∧ chained.ruleID = freshID
        ∧ chained.template = f.template
        ∧ chained.n_max = ((f.max_tasks.getD 1 : Nat) : Int)
        ∧ chained.rule_timeout = f.rule_timeout.getD 3600
        ∧ chained.on_completion = f.next
        ∧ chained.tasks.length = f.max_tasks.getD 1
        ∧ ∀ i, i < f.max_tasks.getD 1 →
            (taskAt chained.tasks i).status = STATUS_AVAILABLE := by
  have hok : ¬ ((0 : Int) < 0
      ∨ (0 : Int) > (((IntegerIDRule.init freshID f.template none (f.max_tasks.getD 1) 600
          (f.rule_timeout.getD 3600) f.next true n_retries now).tasks.length : Nat) : Int)
      ∨ ((f.max_tasks.getD 1 : Nat) : Int) < 0
      ∨ ((f.max_tasks.getD 1 : Nat) : Int)
          > (((IntegerIDRule.init freshID f.template none (f.max_tasks.getD 1) 600
            (f.rule_timeout.getD 3600) f.next true n_retries now).tasks.length : Nat) : Int)) := by
    show ¬ ((0 : Int) < 0
      ∨ (0 : Int) > ((List.replicate (f.max_tasks.getD 1) zeroTask).length : Int)
      ∨ ((f.max_tasks.getD 1 : Nat) : Int) < 0
      ∨ ((f.max_tasks.getD 1 : Nat) : Int)
          > ((List.replicate (f.max_tasks.getD 1) zeroTask).length : Int))
    rw [List.length_replicate]
    push_neg
    exact ⟨by omega, by omega, by omega, by omega⟩
  refine ⟨(make_range_available (IntegerIDRule.init freshID f.template none
      (f.max_tasks.getD 1) 600 (f.rule_timeout.getD 3600) f.next true n_retries now)
      0 ((f.max_tasks.getD 1 : Nat) : Int) now).1, ?_, ?_, ?_, ?_, ?_, ?_, ?_, ?_⟩
  case refine_1 =>
    simp only [poll_rule_step, hlook, hfin, hoc, if_true]
  case refine_2 =>
    simp only [make_range_available, if_neg hok, update_nums]
    rfl
  case refine_3 =>
    simp only [make_range_available, if_neg hok, update_nums]
    rfl
  case refine_4 =>
    simp only [make_range_available, if_neg hok, update_nums]
    rfl
  case refine_5 =>
    simp only [make_range_available, if_neg hok, update_nums]
    rfl
  case refine_6 =>
    simp only [make_range_available, if_neg hok, update_nums]
    rfl
  case refine_7 =>
    have htasks : (make_range_available (IntegerIDRule.init freshID f.template none
        (f.max_tasks.getD 1) 600 (f.rule_timeout.getD 3600) f.next true n_retries now)
        0 ((f.max_tasks.getD 1 : Nat) : Int) now).1.tasks
        = setAvailableRange 0 ((f.max_tasks.getD 1 : Nat) : Int)
          (List.replicate (f.max_tasks.getD 1) zeroTask) 0 := by
      simp only [make_range_available, if_neg hok, update_nums]
      rfl
    rw [htasks, length_setAvailableRange, List.length_replicate]
  case refine_8 =>
    intro i hi
    have htasks : (make_range_available (IntegerIDRule.init freshID f.template none
        (f.max_tasks.getD 1) 600 (f.rule_timeout.getD 3600) f.next true n_retries now)
        0 ((f.max_tasks.getD 1 : Nat) : Int) now).1.tasks
        = setAvailableRange 0 ((f.max_tasks.getD 1 : Nat) : Int)
          (List.replicate (f.max_tasks.getD 1) zeroTask) 0 := by
      simp only [make_range_available, if_neg hok, update_nums]
      rfl
    rw [htasks, taskAt_setAvailableRange _ _ _ _ i (by rw [List.length_replicate]; exact hi),
      if_pos (by constructor <;> [omega; simpa using hi])]

theorem C8_chained_rule_witness :
    ∃ chained,
      poll_rule_step [("A", run (IntegerIDRule.init "A" "tpl" none 1 10 3600
          (some (OnCompletion.mk "tplB" (some 2) none none)) true 3 0)
          [RuleOp.makeRangeAvailable 0 1 0, RuleOp.bid [0] [1] 0,
           RuleOp.markComplete [0] [3] 1])] "A" "B" 2 3
          = (([("A", run (IntegerIDRule.init "A" "tpl" none 1 10 3600
              (some (OnCompletion.mk "tplB" (some 2) none none)) true 3 0)
              [RuleOp.makeRangeAvailable 0 1 0, RuleOp.bid [0] [1] 0,
               RuleOp.markComplete [0] [3] 1])].map
              (fun p => if p.1 == "A" then (p.1, poll_timeouts (run (IntegerIDRule.init "A"
                "tpl" none 1 10 3600 (some (OnCompletion.mk "tplB" (some 2) none none))
                true 3 0) [RuleOp.makeRangeAvailable 0 1 0, RuleOp.bid [0] [1] 0,
                RuleOp.markComplete [0] [3] 1]) 2) else p)).eraseP
              (fun p => p.1 == "A")) ++ [("B", chained)]
        ∧ chained.ruleID = "B"
        ∧ chained.template = "tplB"
        ∧ chained.n_max = 2
        ∧ chained.tasks.length = 2
        ∧ ∀ i, i < 2 → (taskAt chained.tasks i).status = STATUS_AVAILABLE := by
  rcases C8_chained_rule [("A", run (IntegerIDRule.init "A" "tpl" none 1 10 3600
      (some (OnCompletion.mk "tplB" (some 2) none none)) true 3 0)
      [RuleOp.makeRangeAvailable 0 1 0, RuleOp.bid [0] [1] 0,
       RuleOp.markComplete [0] [3] 1])] "A" "B" 2 3 _
      (OnCompletion.mk "tplB" (some 2) none none) rfl (by decide) (by rfl)
    with ⟨chained, h1, h2, h3, h4, h5, h6, h7, h8⟩
  exact ⟨chained, h1, h2, h3, h4, h7, h8⟩

theorem taskAt_append_left (l m : List TaskInfo) (i : Nat) (h : i < l.length) :
    taskAt (l ++ m) i = taskAt l i := by
  induction l generalizing i with
  | nil => simp at h
  | cons t ts ih =>
    cases i with
    | zero => rfl
    | succ n => exact ih n (by simpa using h)

theorem taskAt_replicate_zero (n : Nat) (i : Nat) :
    taskAt (List.replicate n zeroTask) i = zeroTask := by
  induction n generalizing i with
  | zero => exact taskAt_nil i
  | succ m ih =>
    rw [List.replicate_succ]
    cases i with
    | zero => rfl
    | succ k => exact (taskAt_cons_succ _ _ k).trans (ih k)

theorem taskAt_append_replicate (l : List TaskInfo) (n : Nat) (i : Nat)
    (h : l.length ≤ i) :
    taskAt (l ++ List.replicate n zeroTask) i = zeroTask := by
  induction l generalizing i with
  | nil => exact taskAt_replicate_zero n i
  | cons t ts ih =>
    cases i with
    | zero => simp at h
    | succ k => exact (taskAt_cons_succ _ _ k).trans (ih k (by simpa using h))

/-- C10: a successful `mark_datasource_complete(n_max)` call modifies no
pre-existing task row (every id below the old length keeps its whole row),
never shrinks the array (when `n_max` is at most the current length the
array is returned unchanged and only the bound moves), extends it to
exactly `n_max` rows otherwise, and every appended row is the zero row
(status Unavailable, zero retries, zero expiry, zero cost); the bound
becomes `n_max` and `datasourceComplete` becomes true. -/
theorem C10_mark_datasource_frame (r : IntegerIDRule) (n_max : Int)
    (hok : (mark_datasource_complete r n_max).2 = true) :
    r.tasks.length ≤ (mark_datasource_complete r n_max).1.tasks.length
      ∧ (∀ i, i < r.tasks.length →
          taskAt (mark_datasource_complete r n_max).1.tasks i = taskAt r.tasks i)
      ∧ (n_max ≤ (r.tasks.length : Int) →
          (mark_datasource_complete r n_max).1.tasks = r.tasks)
      ∧ ((r.tasks.length : Int) < n_max →
          ((mark_datasource_complete r n_max).1.tasks.length : Int) = n_max)
      ∧ (∀ i, r.tasks.length ≤ i →
          i < (mark_datasource_complete r n_max).1.tasks.length →
          taskAt (mark_datasource_complete r n_max).1.tasks i = zeroTask)
      ∧ (mark_datasource_complete r n_max).1.n_max = n_max
      ∧ (mark_datasource_complete r n_max).1.datasource_complete = true := by
  have hc : ¬ (n_max < (update_nums r).nAssigned) := by
    intro hlt
    have : (mark_datasource_complete r n_max).2 = false := by
      simp only [mark_datasource_complete]
      rw [if_pos hlt]
    rw [this] at hok
    exact absurd hok (by simp)
  by_cases hext : ((update_nums r).tasks.length : Int) < n_max
  · have hmk : (mark_datasource_complete r n_max).1.tasks
        = r.tasks ++ List.replicate (n_max - (r.tasks.length : Int)).toNat zeroTask := by
      simp only [mark_datasource_complete]
      rw [if_neg hc, if_pos hext]
      rfl
    have hlenr : ((r.tasks.length : Nat) : Int) < n_max := hext
    have hntn : ((n_max - (r.tasks.length : Int)).toNat : Int)
        = n_max - (r.tasks.length : Int) := Int.toNat_of_nonneg (by omega)
    have hlen : ((mark_datasource_complete r n_max).1.tasks.length : Int) = n_max := by
      rw [hmk, List.length_append, List.length_replicate]
      push_cast
      omega
    refine ⟨by omega, ?_, ?_, fun _ => hlen, ?_, ?_, ?_⟩
    · intro i hi
      rw [hmk, taskAt_append_left _ _ i hi]
    · intro h
      omega
    · intro i hi1 _
      rw [hmk, taskAt_append_replicate _ _ i hi1]
    · simp only [mark_datasource_complete]
      rw [if_neg hc, if_pos hext]
    · simp only [mark_datasource_complete]
      rw [if_neg hc, if_pos hext]
  · have hmk : (mark_datasource_complete r n_max).1.tasks = r.tasks := by
      simp only [mark_datasource_complete]
      rw [if_neg hc, if_neg hext]
      rfl
    refine ⟨by rw [hmk], fun i _ => by rw [hmk], fun _ => hmk, ?_, ?_, ?_, ?_⟩
    · intro h
      exact absurd h hext
    · intro i hi1 hi2
      rw [hmk] at hi2
      omega
    · simp only [mark_datasource_complete]
      rw [if_neg hc, if_neg hext]
    · simp only [mark_datasource_complete]
      rw [if_neg hc, if_neg hext]

theorem C10_mark_datasource_frame_witness :
    ((mark_datasource_complete (run (IntegerIDRule.init "r" "tpl" none 2 10 3600
        none false 3 0) [RuleOp.makeRangeAvailable 0 1 0]) 3).2 = true)
      ∧ (((mark_datasource_complete (run (IntegerIDRule.init "r" "tpl" none 2 10 3600
          none false 3 0) [RuleOp.makeRangeAvailable 0 1 0]) 3).1.tasks.length : Int) = 3
      ∧ taskAt (mark_datasource_complete (run (IntegerIDRule.init "r" "tpl" none 2 10 3600
          none false 3 0) [RuleOp.makeRangeAvailable 0 1 0]) 3).1.tasks 0
        = taskAt (run (IntegerIDRule.init "r" "tpl" none 2 10 3600 none false 3 0)
            [RuleOp.makeRangeAvailable 0 1 0]).tasks 0
      ∧ taskAt (mark_datasource_complete (run (IntegerIDRule.init "r" "tpl" none 2 10 3600
          none false 3 0) [RuleOp.makeRangeAvailable 0 1 0]) 3).1.tasks 2 = zeroTask) := by
  refine ⟨by decide, ?_, ?_, ?_⟩
  · exact (C10_mark_datasource_frame (run (IntegerIDRule.init "r" "tpl" none 2 10 3600
      none false 3 0) [RuleOp.makeRangeAvailable 0 1 0]) 3 (by decide)).2.2.2.1 (by decide)
  · exact (C10_mark_datasource_frame (run (IntegerIDRule.init "r" "tpl" none 2 10 3600
      none false 3 0) [RuleOp.makeRangeAvailable 0 1 0]) 3 (by decide)).2.1 0 (by decide)
  · exact (C10_mark_datasource_frame (run (IntegerIDRule.init "r" "tpl" none 2 10 3600
      none false 3 0) [RuleOp.makeRangeAvailable 0 1 0]) 3 (by decide)).2.2.2.2.1 2
      (by decide) (by decide)

end RuleServerModel
